import Mathlib

/-!
Verification of the turn-resolution core of `iag-runner`.

Shallow embedding of:
  * `backend/rules/core.py`      (seeded dice ledger: `SessionState`, `roll_d20`, `roll`)
  * `backend/rules/statuses.py`  (status ledger: `apply_status`, `tick_statuses`)
  * `backend/rules/combat.py`    (`resolve_attack` and its helpers)
  * `backend/gm_os/router.py`    (`route_envelope`) and `backend/gm_os/protocols.py`
  * `backend/rules/turn.py`      (`_consume_rolls` and the `TurnResult` construction sites)

The Python code draws its randomness from `random.Random(seed)`, CPython's
Mersenne-Twister (MT19937) generator.  We model the generator by the list of
32-bit words it outputs: `mtWords seed n` reproduces the first `n` outputs of
CPython's `random.Random(seed).getrandbits(32)` stream for a seed in
`[0, 2^32)`, and the drawing primitives (`randint`, `random`) are modelled by
their CPython definitions over that word stream:
  * `getrandbits(k)` (k ≤ 32) consumes one word `w` and returns `w >>> (32-k)`;
  * `randint(a, b)` is `a + _randbelow(b-a+1)`, where `_randbelow(n)` draws
    `getrandbits(n.bit_length())` and rejects values ≥ n;
  * `random()` consumes two words `w1, w2` and returns
    `((w1 >>> 5) * 2^26 + (w2 >>> 6)) / 2^53` (we keep the integer numerator).
Sessions carry a finite prefix of the word stream; exhausting it surfaces as a
distinct `entropy` error that the real (unbounded) generator never produces.
-/

namespace IagRunner

/-- Evaluation-forcing combinator: both branches are `k v`, so
`forceNat v k = k v` definitionally (`forceNat_eq`).  The comparison guard
makes kernel reduction normalise `v` to a numeral before continuing, keeping
the pending-computation chains of the generator shallow. -/
def forceNat {α : Sort _} (v : Nat) (k : Nat → α) : α :=
  if v ≤ v then k v else k v

/-! ### CPython MT19937 word stream -/

def U32 : Nat := 4294967296

/-- MT19937 output tempering of one 32-bit state word. -/
def temper (y : Nat) : Nat :=
  let y1 := y ^^^ (y >>> 11)
  let y2 := y1 ^^^ ((y1 <<< 7) &&& 0x9d2c5680)
  let y3 := y2 ^^^ ((y2 <<< 15) &&& 0xefc60000)
  (y3 ^^^ (y3 >>> 18)) % U32

/-- Tail of `init_genrand`: `mt[i] = (1812433253 * (mt[i-1] ^ (mt[i-1] >> 30)) + i) mod 2^32`. -/
def initGenrandAux : Nat → Nat → Nat → List Nat
  | _, _, 0 => []
  | prev, i, n + 1 =>
    forceNat ((1812433253 * (prev ^^^ (prev >>> 30)) + i) % U32) fun cur =>
      cur :: initGenrandAux cur (i + 1) n

/-- MT19937 `init_genrand`: the 624-word state seeded from a single word. -/
def initGenrand (s : Nat) : List Nat :=
  (s % U32) :: initGenrandAux (s % U32) 1 623

/-- One step of the first `init_by_array` mixing loop (single-word key, so
`key[j] + j = seed` at every step). -/
def mix1 (seed prev x : Nat) : Nat :=
  ((x ^^^ (((prev ^^^ (prev >>> 30)) * 1664525) % U32)) + seed) % U32

/-- One step of the second `init_by_array` mixing loop at index `i`
(the C code subtracts `i` in 32-bit arithmetic). -/
def mix2 (prev i x : Nat) : Nat :=
  ((x ^^^ (((prev ^^^ (prev >>> 30)) * 1566083941) % U32)) + (U32 - i)) % U32

/-- Sequential sweep of `mix1` along the state, carrying the freshly written
previous word (the C loop reads `mt[i-1]` after writing it). -/
def walk1 (seed : Nat) : Nat → List Nat → List Nat
  | _, [] => []
  | prev, x :: xs =>
    forceNat (mix1 seed prev x) fun cur => cur :: walk1 seed cur xs

/-- Sequential sweep of `mix2` along the state, carrying the previous word and
the running index. -/
def walk2 : Nat → Nat → List Nat → List Nat
  | _, _, [] => []
  | prev, i, x :: xs =>
    forceNat (mix2 prev i x) fun cur => cur :: walk2 cur (i + 1) xs

/-- CPython seeding for an integer seed in `[0, 2^32)` (key array `[seed]`):
`init_genrand(19650218)`, then the two `init_by_array` mixing loops (624 and
623 steps; when `i` reaches 624 the loop wraps with `mt[0] := mt[623]; i := 1`
and performs its remaining step at `i = 1`), then `mt[0] := 0x80000000`.
Returns the 624-word state before the first twist. -/
def mtInit (seed : Nat) : List Nat :=
  let m := initGenrand 19650218
  let h0 := m.headD 0
  let t1 := walk1 seed h0 m.tail
  let m0a := t1.getLastD 0
  let m1b := mix1 seed m0a (t1.headD 0)
  let t2 := walk2 m1b 2 (t1.drop 1)
  let m0c := t2.getLastD 0
  let m1d := mix2 m0c 1 m1b
  0x80000000 :: m1d :: t2

/-- The `y` word of one twist cell: high bit of the current word joined with
the low 31 bits of the following word. -/
def twistY (cur next : Nat) : Nat :=
  (cur &&& 0x80000000) ||| (next &&& 0x7fffffff)

/-- One twisted cell: `mt[kk] := mt[kk+397 mod 624] ^ (y >> 1) ^ mag01[y & 1]`. -/
def twistCell (far cur next : Nat) : Nat :=
  let y := twistY cur next
  far ^^^ (y >>> 1) ^^^ (if y % 2 = 1 then 0x9908b0df else 0)

/-- Pointwise `twistCell` over three parallel streams (`far`, `cur`, `next`),
truncating at the shortest. -/
def twistZip : List Nat → List Nat → List Nat → List Nat
  | f :: fs, a :: as, b :: bs =>
    forceNat (twistCell f a b) fun v => v :: twistZip fs as bs
  | _, _, _ => []

/-- The MT19937 twist of the 624-word state.  The C loop updates `mt`
in place for `kk = 0..623`; position `kk` reads `mt[kk]`, `mt[(kk+1) % 624]`
and `mt[(kk+397) % 624]`, where a position below `kk` has already been
rewritten.  Splitting at those wrap points gives four segments in which every
read is unambiguously from the old or the new state:
  * `kk = 0..226`: all three reads are old values;
  * `kk = 227..453`: `far = new[kk-227]`, which lies in segment one;
  * `kk = 454..622`: `far = new[kk-227]`, which lies in segment two;
  * `kk = 623`: `far = new[396]` (segment two) and `next = new[0]`. -/
def twist (old : List Nat) : List Nat :=
  let seg1 := twistZip (old.drop 397) old (old.drop 1)
  let seg2 := twistZip seg1 (old.drop 227) (old.drop 228)
  let seg3 := twistZip seg2 (old.drop 454) (old.drop 455)
  let last := twistCell (seg2.getD 169 0) (old.getD 623 0) (seg1.headD 0)
  seg1 ++ seg2 ++ seg3 ++ [last]

/-- Generator state: the 624 state words plus the output index
(CPython starts at `mti = 624`, forcing a twist on the first draw). -/
structure MTState where
  mt : List Nat
  mti : Nat

/-- Produce one tempered 32-bit output word. -/
def genrand : MTState → Nat × MTState
  | ⟨mt, mti⟩ =>
    if 624 ≤ mti then
      let mt2 := twist mt
      (temper (mt2.getD 0 0), ⟨mt2, 1⟩)
    else
      (temper (mt.getD mti 0), ⟨mt, mti + 1⟩)

/-- First `n` output words of the generator from a given state. -/
def genrandWords : Nat → MTState → List Nat
  | 0, _ => []
  | n + 1, st =>
    forceNat (genrand st).1 fun w => w :: genrandWords n (genrand st).2

/-- First `n` 32-bit outputs of `random.Random(seed)` (seed in `[0, 2^32)`),
i.e. of `getrandbits(32)` called `n` times. -/
def mtWords (seed n : Nat) : List Nat :=
  genrandWords n ⟨mtInit seed, 624⟩

/-! ### Drawing primitives over the word stream -/

/-- Halving recursion for `bitLength`, with enough fuel (`n` itself). -/
def bitLengthAux : Nat → Nat → Nat
  | 0, _ => 0
  | fuel + 1, n => if n = 0 then 0 else bitLengthAux fuel (n / 2) + 1

/-- Python `int.bit_length`: the number of binary digits of `n`. -/
def bitLength (n : Nat) : Nat :=
  bitLengthAux n n

/-- CPython `_randbelow(n)`: draw `getrandbits(n.bit_length())` (one word per
attempt, keeping the word's top bits), rejecting results ≥ n.  Fails only when
the modelled word stream runs out. -/
def randbelow (n : Nat) : List Nat → Option (Nat × List Nat)
  | [] => none
  | w :: ws =>
    let r := w >>> (32 - bitLength n)
    if r < n then some (r, ws) else randbelow n ws

/-- CPython `randint(lo, hi) = randrange(lo, hi+1) = lo + _randbelow(hi+1-lo)`. -/
def randint (lo hi : Nat) (ws : List Nat) : Option (Nat × List Nat) :=
  (randbelow (hi + 1 - lo) ws).map fun p => (lo + p.1, p.2)

/-- CPython `random()`: consumes two words and returns the 53-bit numerator
`(w1 >>> 5) * 2^26 + (w2 >>> 6)` of the produced float. -/
def randomDraw : List Nat → Option (Nat × List Nat)
  | w1 :: w2 :: ws => some ((w1 >>> 5) * 67108864 + (w2 >>> 6), ws)
  | _ => none

/-! ### `backend/rules/core.py`: the dice ledger -/

/-- One entry of `SessionState.turn_log`, as appended by `_log_roll`. -/
structure RollEntry where
  formula : String
  result : Int
  rolls : List Int
  modifier : Int
  label : Option String
  deriving DecidableEq, Repr

/-- `SessionState`: the per-turn dice ledger.  The Python dataclass holds the
seed and a `random.Random(seed)` generator; here the generator is represented
by its remaining word stream (`mkSessionState` seeds it from `mtWords`). -/
structure SessionState where
  stream : List Nat
  turn_log : List RollEntry
  deriving DecidableEq, Repr

/-- `SessionState(seed=s)` with the first `budget` generator words
materialised. -/
def mkSessionState (seed budget : Nat) : SessionState :=
  ⟨mtWords seed budget, []⟩

/-- `_log_roll`: append one entry to the session's roll ledger. -/
def logRoll (s : SessionState) (formula : String) (result : Int) (rolls : List Int)
    (modifier : Int) (label : Option String) : SessionState :=
  { s with turn_log := s.turn_log ++ [⟨formula, result, rolls, modifier, label⟩] }

/-- Errors of the dice subsystem: `format` models the `ValueError` raised for a
malformed dice string; `entropy` is the model-only failure of running out of
materialised generator words (the real generator is unbounded). -/
inductive RollErr where
  | format
  | entropy
  deriving DecidableEq, Repr

/-- `roll_d20`: draw `randint(1, 20)`, log it as formula `"1d20"` with the
single component roll and modifier 0, and return it.  A raised exception
leaves the session unchanged, so the state is returned alongside the result. -/
def roll_d20 (s : SessionState) (label : Option String) :
    Except RollErr Int × SessionState :=
  match randint 1 20 s.stream with
  | none => (.error .entropy, s)
  | some (v, ws) =>
    (.ok (v : Int), logRoll { s with stream := ws } "1d20" (v : Int) [(v : Int)] 0 label)

/-- ASCII whitespace accepted by Python's `\s` and `str.strip` (the source
formulas are ASCII, so the unicode cases of `\s` are not modelled). -/
def isSpaceChar (c : Char) : Bool :=
  c = ' ' ∨ c = '\t' ∨ c = '\n' ∨ c = '\r' ∨ c = '\x0b' ∨ c = '\x0c'

/-- Python `str.strip()` on ASCII whitespace. -/
def pyStrip (s : String) : String :=
  ⟨((s.data.dropWhile isSpaceChar).reverse.dropWhile isSpaceChar).reverse⟩

/-- Python `str.lower()` (ASCII range; the source vocabulary is ASCII). -/
def pyLower (s : String) : String :=
  ⟨s.data.map Char.toLower⟩

/-- Numeric value of a digit run. -/
def digitsToNat (cs : List Char) : Nat :=
  cs.foldl (fun acc c => 10 * acc + (c.toNat - 48)) 0

/-- `INTEGER_PATTERN = ^\s*\d+\s*$`: a bare non-negative integer with optional
surrounding whitespace; returns its value (`int(dice_str)`). -/
def parseIntegerFormula (s : String) : Option Nat :=
  let cs := s.data.dropWhile isSpaceChar
  let digits := cs.takeWhile Char.isDigit
  let rest := (cs.dropWhile Char.isDigit).dropWhile isSpaceChar
  if digits.isEmpty ∨ ¬rest.isEmpty then none else some (digitsToNat digits)

/-- The optional `([+-]\d+)?` suffix of `DICE_PATTERN`: returns the signed
modifier and the remaining characters, or `none` when a sign is present
without digits (so the whole pattern fails to match). -/
def parseModifier : List Char → Option (Int × List Char)
  | '+' :: rest =>
    let digits := rest.takeWhile Char.isDigit
    if digits.isEmpty then none
    else some ((digitsToNat digits : Int), rest.dropWhile Char.isDigit)
  | '-' :: rest =>
    let digits := rest.takeWhile Char.isDigit
    if digits.isEmpty then none
    else some (-(digitsToNat digits : Int), rest.dropWhile Char.isDigit)
  | rest => some (0, rest)

/-- `DICE_PATTERN = ^\s*(\d*)d(\d+)([+-]\d+)?\s*$` (case-insensitive `d`):
returns the optional dice count (`none` when the count text is empty), the
side count, and the signed modifier (0 when absent). -/
def parseDiceFormula (s : String) : Option (Option Nat × Nat × Int) :=
  let cs := s.data.dropWhile isSpaceChar
  let countDigits := cs.takeWhile Char.isDigit
  match cs.dropWhile Char.isDigit with
  | d :: rest =>
    if d = 'd' ∨ d = 'D' then
      let sidesDigits := rest.takeWhile Char.isDigit
      if sidesDigits.isEmpty then none
      else
        match parseModifier (rest.dropWhile Char.isDigit) with
        | none => none
        | some (modifier, rest2) =>
          if (rest2.dropWhile isSpaceChar).isEmpty then
            some (if countDigits.isEmpty then none else some (digitsToNat countDigits),
                  digitsToNat sidesDigits, modifier)
          else none
    else none
  | [] => none

/-- Draw `count` dice of `sides` sides in order (the Python list
comprehension `[rng.randint(1, sides) for _ in range(count)]`). -/
def rollDice (count sides : Nat) : List Nat → Option (List Int × List Nat)
  | ws =>
    match count with
    | 0 => some ([], ws)
    | c + 1 =>
      match randint 1 sides ws with
      | none => none
      | some (v, ws2) =>
        match rollDice c sides ws2 with
        | none => none
        | some (vs, ws3) => some ((v : Int) :: vs, ws3)

/-- `roll`: a bare integer formula logs itself (empty component list,
modifier 0) and returns its value; an `NdM±K` formula with `N ≥ 1`,
`M ≥ 1` draws `N` dice and returns their sum plus `K`; anything else raises
(`format`).  A raised exception leaves the session unchanged. -/
def roll (s : SessionState) (dice_str : String) (label : Option String) :
    Except RollErr Int × SessionState :=
  match parseIntegerFormula dice_str with
  | some n =>
    (.ok (n : Int), logRoll s (toString n) (n : Int) [] 0 label)
  | none =>
    match parseDiceFormula dice_str with
    | none => (.error .format, s)
    | some (countOpt, sides, modifier) =>
      let count := countOpt.getD 1
      if count = 0 ∨ sides = 0 then (.error .format, s)
      else
        match rollDice count sides s.stream with
        | none => (.error .entropy, s)
        | some (vals, ws) =>
          let total : Int := vals.sum + modifier
          (.ok total,
           logRoll { s with stream := ws } (pyStrip dice_str) total vals modifier label)

deriving instance DecidableEq for Except

/-- One call of the dice-ledger interface, for replaying call sequences. -/
inductive RollCall where
  | d20 (label : Option String)
  | dice (formula : String) (label : Option String)
  deriving DecidableEq, Repr

/-- Execute one `RollCall` against a session. -/
def runCall (s : SessionState) : RollCall → Except RollErr Int × SessionState
  | .d20 label => roll_d20 s label
  | .dice formula label => roll s formula label

/-- Execute a sequence of calls, collecting the returned totals; a failed call
leaves the session unchanged (matching exception semantics) and the sequence
continues. -/
def runCalls (s : SessionState) : List RollCall → List (Except RollErr Int) × SessionState
  | [] => ([], s)
  | c :: cs =>
    let (r, s2) := runCall s c
    let (rs, s3) := runCalls s2 cs
    (r :: rs, s3)

/-- `_consume_rolls` from `backend/rules/turn.py`: discard `roll_index` draws
of `rng.random()` (each consuming two generator words), without logging.
If the modelled stream is exhausted the remainder is discarded. -/
def consume_rolls (s : SessionState) : Nat → SessionState
  | 0 => s
  | k + 1 =>
    match randomDraw s.stream with
    | some (_, ws) => consume_rolls { s with stream := ws } k
    | none => consume_rolls { s with stream := [] } k

/-! ### `backend/rules/statuses.py`: the status ledger

Status dictionaries are keyed by the canonical names of the closed vocabulary
`STATUS_CANONICAL`; we use an inductive key type.  A dict preserves insertion
order and has unique keys, so it is modelled as an association list in
insertion order (`dictSet` writes the first matching key in place, appending
a missing key at the end, exactly like a `dict` item assignment). -/

/-- The closed status vocabulary (values of `STATUS_CANONICAL`). -/
inductive Status where
  | bleeding
  | ignited
  | stun
  | asphyxiation
  | toxin
  | injured
  | concentration
  | hidden
  | cold
  | disease
  deriving DecidableEq, Repr

/-- Canonical display name of a status (the `STATUS_CANONICAL` values). -/
def canonicalName : Status → String
  | .bleeding => "Bleeding"
  | .ignited => "Ignited"
  | .stun => "Stun"
  | .asphyxiation => "Asphyxiation"
  | .toxin => "Toxin"
  | .injured => "Injured"
  | .concentration => "Concentration"
  | .hidden => "Hidden"
  | .cold => "Cold"
  | .disease => "Disease"

/-- `normalize_status`: strip, lowercase, look up in `STATUS_CANONICAL`;
`none` models the raised `Unknown status` `ValueError`. -/
def normalize_status (name : String) : Option Status :=
  let key := pyLower (pyStrip name)
  if key = "bleeding" then some .bleeding
  else if key = "ignited" then some .ignited
  else if key = "stun" then some .stun
  else if key = "asphyxiation" then some .asphyxiation
  else if key = "toxin" then some .toxin
  else if key = "injured" then some .injured
  else if key = "concentration" then some .concentration
  else if key = "hidden" then some .hidden
  else if key = "cold" then some .cold
  else if key = "disease" then some .disease
  else none

/-- `DEFAULT_DURATIONS`. -/
def DEFAULT_DURATIONS : Status → Option Int
  | .bleeding => some 3
  | .ignited => some 3
  | .stun => some 1
  | .asphyxiation => some 2
  | .toxin => some 3
  | .injured => some 3
  | .concentration => none
  | .hidden => some 1
  | .cold => some 3
  | .disease => none

/-- One status-map entry (the dict `{"stacks": .., "level": .., "duration": ..}`). -/
structure StatusEntry where
  «stacks» : Int
  level : Int
  duration : Option Int
  deriving DecidableEq, Repr

/-- A combatant's status map: canonical key to entry, in insertion order. -/
abbrev Ledger : Type := List (Status × StatusEntry)

/-- Dict read: value at a key, if present. -/
def ledgerGet (l : Ledger) (k : Status) : Option StatusEntry :=
  match l with
  | [] => none
  | (k0, v0) :: rest => if k0 = k then some v0 else ledgerGet rest k

/-- Dict item assignment: overwrite the (first) entry at the key in place, or
append a new entry at the end. -/
def dictSet (l : Ledger) (k : Status) (v : StatusEntry) : Ledger :=
  match l with
  | [] => [(k, v)]
  | (k0, v0) :: rest => if k0 = k then (k0, v) :: rest else (k0, v0) :: dictSet rest k v

/-- `apply_status` after name canonicalization: create or merge an entry —
stacks add (floored at 1), level takes the max, and the given-or-default
duration (when not `None`) is merged by max into the existing one. -/
def applyStatus (statuses : Ledger) (canonical : Status) («stacks» level : Int)
    (duration : Option Int) : Ledger :=
  let entry := (ledgerGet statuses canonical).getD ⟨0, 0, none⟩
  let stacks2 := max 1 (entry.«stacks» + «stacks»)
  let level2 := max entry.level level
  let resolved := match duration with
    | some d => some d
    | none => DEFAULT_DURATIONS canonical
  let duration2 := match resolved with
    | none => entry.duration
    | some d =>
      match entry.duration with
      | none => some d
      | some existing => some (max existing d)
  dictSet statuses canonical ⟨stacks2, level2, duration2⟩

/-- `apply_status` with the source's string interface: canonicalize the name
(`none` models the `Unknown status` error), then merge. -/
def apply_status (statuses : Ledger) (name : String) («stacks» level : Int)
    (duration : Option Int) : Option Ledger :=
  (normalize_status name).map fun canonical =>
    applyStatus statuses canonical «stacks» level duration

/-- Per-entry damage contribution and entry update of one `turn`/`day` tick
(the body of the `tick_statuses` loop before the duration step): returns the
HP loss (a non-negative magnitude, subtracted from the running delta) and the
possibly level-bumped entry (Disease on a `day` tick). -/
def tickDamage (tickKey : String) (st : Status) (e : StatusEntry) : Int × StatusEntry :=
  if st = .bleeding ∧ tickKey = "turn" then (max 1 e.«stacks» * max 1 e.level, e)
  else if st = .ignited ∧ tickKey = "turn" then (2 * max 1 e.level, e)
  else if st = .asphyxiation ∧ tickKey = "turn" then (2 * max 1 e.level, e)
  else if st = .toxin ∧ tickKey = "turn" then (max 1 e.level, e)
  else if st = .disease ∧ tickKey = "day" then
    (max 1 e.level + 1, { e with level := max 1 e.level + 1 })
  else (0, e)

/-- The `tick_statuses` loop over the entry list: accumulate the HP delta,
decrement numeric durations on `turn` ticks, drop entries whose decremented
duration is ≤ 0 (collecting their names in order), keep the rest in place.
The Python loop iterates a snapshot of the items and mutates the dict by key;
with unique canonical keys that equals this one-pass traversal. -/
def tickGo (tickKey : String) : List (Status × StatusEntry) →
    Ledger × Int × List Status
  | [] => ([], 0, [])
  | (st, e) :: rest =>
    let (dmg, e1) := tickDamage tickKey st e
    let (restLed, restDelta, restExp) := tickGo tickKey rest
    match e1.duration with
    | some d =>
      if tickKey = "turn" then
        if d - 1 ≤ 0 then (restLed, restDelta - dmg, st :: restExp)
        else ((st, { e1 with duration := some (d - 1) }) :: restLed, restDelta - dmg, restExp)
      else ((st, e1) :: restLed, restDelta - dmg, restExp)
    | none => ((st, e1) :: restLed, restDelta - dmg, restExp)

/-- `tick_statuses`: apply one time step of the given type to the ledger,
returning the updated ledger, the net HP delta, and the expired names. -/
def tick_statuses (statuses : Ledger) (tick_type : String) : Ledger × Int × List Status :=
  tickGo (pyLower (pyStrip tick_type)) statuses

/-- `total_dex_penalty`: sum of `max(1, level)` over Cold entries. -/
def total_dex_penalty (statuses : Ledger) : Int :=
  match statuses with
  | [] => 0
  | (st, e) :: rest =>
    (if st = .cold then max 1 e.level else 0) + total_dex_penalty rest

/-- Well-formedness of a ledger entry as produced by `apply_status`: stacks
and level at least 1, and any numeric duration at least 1. -/
def EntryWF (e : StatusEntry) : Prop :=
  1 ≤ e.«stacks» ∧ 1 ≤ e.level ∧ ∀ d, e.duration = some d → 1 ≤ d

/-- Well-formedness of a ledger: every entry well-formed, keys unique. -/
def LedgerWF (l : Ledger) : Prop :=
  (∀ p ∈ l, EntryWF p.2) ∧ (l.map Prod.fst).Nodup

/-! ### `backend/rules/combat.py`: the combat resolver -/

def CALLED_SHOT_PENALTY : Int := 5

def DODGE_BONUS_DEFAULT : Int := 2

/-- The keys of `CALLED_SHOT_EFFECTS`. -/
def calledShotEffectNames : List String := ["disarm", "slow", "stun_attempt"]

/-- `called_shot_effect in CALLED_SHOT_EFFECTS` (a `None` effect is not a
key). -/
def calledShotEffectValid : Option String → Bool
  | some e => e ∈ calledShotEffectNames
  | none => false

structure Weapon where
  name : String
  damage : String
  bonus : Int
  tags : List String
  deriving DecidableEq, Repr

structure CombatantState where
  name : String
  dex : Int
  armor_rating : Int
  ap : Int
  hp : Int
  statuses : Ledger
  skill : Int
  attr : Int
  attack_bonus : Int
  damage_bonus : Int
  weapon : Option Weapon
  initiative_bonus : Int
  deriving DecidableEq, Repr

structure CounterResult where
  triggered : Bool
  hit : Bool
  attack_roll : Int
  attack_total : Int
  damage : Int
  ap_before : Int
  ap_after : Int
  hp_before : Int
  hp_after : Int
  deriving DecidableEq, Repr

structure AttackResult where
  hit : Bool
  crit : Bool
  attack_roll : Int
  attack_total : Int
  target_ar : Int
  damage : Int
  ap_before : Int
  ap_after : Int
  hp_before : Int
  hp_after : Int
  called_shot_effect : Option String
  counter : Option CounterResult
  deriving DecidableEq, Repr

/-- Errors raised inside `resolve_attack`: the two `ValueError`s of the
resolver itself, plus the dice errors (`format` is `roll`'s `ValueError`;
`entropy` is the model-only exhausted-stream failure). -/
inductive CombatErr where
  | unknownEffect
  | noWeapon
  | format
  | entropy
  deriving DecidableEq, Repr

/-- Lift a dice error into a combat error. -/
def liftRollErr : RollErr → CombatErr
  | .format => .format
  | .entropy => .entropy

/-- `_dodge_bonus`: the given bonus if truthy, else the fixed default of 2,
but only under a `dodge` reaction. -/
def dodge_bonus (reaction : Option String) (reaction_bonus : Int) : Int :=
  if reaction ≠ some "dodge" then 0
  else if reaction_bonus ≠ 0 then reaction_bonus
  else DODGE_BONUS_DEFAULT

/-- `_roll_damage`: roll the damage formula, then recompute the total from the
components of the just-logged entry — doubling the dice sum on a critical and
re-adding the modifier once — and add the flat bonus.  (After a successful
`roll` the log is never empty and the entry's `rolls` list is a list of ints,
so the recompute branch always runs.) -/
def roll_damage (s : SessionState) (dice_str : String) (bonus : Int) (crit : Bool) :
    Except CombatErr Int × SessionState :=
  match roll s dice_str none with
  | (.error e, s2) => (.error (liftRollErr e), s2)
  | (.ok base_total, s2) =>
    match s2.turn_log.getLast? with
    | none => (.ok (base_total + bonus), s2)
    | some last =>
      (.ok ((if crit then 2 else 1) * last.rolls.sum + last.modifier + bonus), s2)

/-- `_apply_damage`: AP absorbs first, the overflow hits HP, both floored
at 0. -/
def apply_damage (ap hp damage : Int) : Int × Int :=
  (max 0 (ap - damage), max 0 (hp - max 0 (damage - ap)))

/-- `_apply_damage_with_block`: absorb against base AP plus block AP, then cap
the surviving AP at the base AP (the block bonus never carries forward). -/
def apply_damage_with_block (base_ap hp damage block_ap : Int) : Int × Int :=
  let total_ap := base_ap + block_ap
  let p := apply_damage total_ap hp damage
  (min p.1 base_ap, p.2)

/-- `_apply_called_shot_effect`: `stun_attempt` applies Stun (duration 1),
`slow` applies Cold (level 1, duration 1), anything else leaves the ledger
alone.  The string literals canonicalize to the corresponding keys. -/
def apply_called_shot_effect (statuses : Ledger) (effect : Option String) : Ledger :=
  if effect = some "stun_attempt" then applyStatus statuses .stun 1 1 (some 1)
  else if effect = some "slow" then applyStatus statuses .cold 1 1 (some 1)
  else statuses

/-- `Weapon(name="Counter Strike", damage="1d4")`. -/
def counterStrikeWeapon : Weapon := ⟨"Counter Strike", "1d4", 0, []⟩

/-- `_resolve_counter`: the defender strikes back with their weapon (or the
unarmed fallback) using the plain hit/damage math against the original
attacker; returns the counter summary and the updated attacker. -/
def resolve_counter (s : SessionState) (counter_roll_override : Option Int)
    (attacker defender : CombatantState) :
    Except CombatErr (CounterResult × CombatantState) × SessionState :=
  let counter_weapon := defender.weapon.getD counterStrikeWeapon
  let rollRes : Except RollErr Int × SessionState :=
    match counter_roll_override with
    | some v => if v ≠ 0 then (.ok v, s) else roll_d20 s none
    | none => roll_d20 s none
  match rollRes with
  | (.error e, s2) => (.error (liftRollErr e), s2)
  | (.ok attack_roll, s2) =>
    let attack_total := attack_roll + defender.skill + defender.attr + defender.attack_bonus
    let hit : Bool := attacker.armor_rating ≤ attack_total
    let ap_before := attacker.ap
    let hp_before := attacker.hp
    if hit then
      match roll_damage s2 counter_weapon.damage (counter_weapon.bonus + defender.damage_bonus)
          (19 ≤ attack_roll) with
      | (.error e, s3) => (.error e, s3)
      | (.ok damage_total, s3) =>
        let p := apply_damage ap_before hp_before damage_total
        (.ok (⟨true, hit, attack_roll, attack_total, damage_total,
               ap_before, p.1, hp_before, p.2⟩,
              { attacker with ap := p.1, hp := p.2 }), s3)
    else
      (.ok (⟨true, hit, attack_roll, attack_total, 0,
             ap_before, ap_before, hp_before, hp_before⟩, attacker), s2)

/-- `resolve_attack`: the full single-attack resolution.  Returns the attack
summary plus the (possibly counter-updated) attacker and the updated defender
snapshots, alongside the session.  Errors model the raised `ValueError`s. -/
def resolve_attack (s : SessionState) (attacker defender : CombatantState)
    (called_shot : Bool) (called_shot_effect : Option String)
    (reaction : Option String) (reaction_bonus reaction_ap : Int)
    (attack_roll_override counter_roll_override : Option Int) :
    Except CombatErr (AttackResult × CombatantState × CombatantState) × SessionState :=
  let cse := if called_shot ∧ called_shot_effect = none then some "disarm"
             else called_shot_effect
  if called_shot && !(calledShotEffectValid cse) then
    (.error .unknownEffect, s)
  else
    let dodge := dodge_bonus reaction reaction_bonus
    let target_ar := defender.armor_rating + dodge
    let rollRes : Except RollErr Int × SessionState :=
      match attack_roll_override with
      | some v => if v ≠ 0 then (.ok v, s) else roll_d20 s none
      | none => roll_d20 s none
    match rollRes with
    | (.error e, s2) => (.error (liftRollErr e), s2)
    | (.ok attack_roll, s2) =>
      let crit : Bool := 19 ≤ attack_roll
      let attack_total := attack_roll + attacker.skill + attacker.attr
        + attacker.attack_bonus - (if called_shot then CALLED_SHOT_PENALTY else 0)
      let hit : Bool := target_ar ≤ attack_total
      let base_ap := defender.ap
      let block_ap := if reaction = some "block" then reaction_ap else 0
      let ap_before := base_ap + block_ap
      let hp_before := defender.hp
      let afterHit : Except CombatErr (Int × Int × Int × Ledger) × SessionState :=
        if hit then
          match attacker.weapon with
          | none => (.error .noWeapon, s2)
          | some w =>
            match roll_damage s2 w.damage (w.bonus + attacker.damage_bonus) crit with
            | (.error e, s3) => (.error e, s3)
            | (.ok damage_total, s3) =>
              let p := if block_ap ≠ 0 then
                  apply_damage_with_block base_ap hp_before damage_total block_ap
                else apply_damage base_ap hp_before damage_total
              let statuses2 := if called_shot then
                  apply_called_shot_effect defender.statuses cse
                else defender.statuses
              (.ok (damage_total, p.1, p.2, statuses2), s3)
        else (.ok (0, base_ap, hp_before, defender.statuses), s2)
      match afterHit with
      | (.error e, s3) => (.error e, s3)
      | (.ok (damage_total, ap_after, hp_after, statuses2), s3) =>
        let counterRes : Except CombatErr (Option CounterResult × CombatantState) × SessionState :=
          if reaction = some "counter" ∧ hit = false then
            match resolve_counter s3 counter_roll_override attacker defender with
            | (.error e, s4) => (.error e, s4)
            | (.ok (cr, attacker2), s4) => (.ok (some cr, attacker2), s4)
          else (.ok (none, attacker), s3)
        match counterRes with
        | (.error e, s4) => (.error e, s4)
        | (.ok (counter_result, attacker2), s4) =>
          let result : AttackResult :=
            ⟨hit, crit, attack_roll, attack_total, target_ar, damage_total,
             ap_before, ap_after, hp_before, hp_after,
             if hit ∧ called_shot then cse else none,
             counter_result⟩
          let updated_defender :=
            { defender with ap := ap_after, hp := hp_after, statuses := statuses2 }
          (.ok (result, attacker2, updated_defender), s4)

/-! ### `backend/gm_os/protocols.py` and `backend/gm_os/router.py` -/

/-- The closed `ProtocolId` enumeration. -/
inductive ProtocolId where
  | PROTO_CLARIFICATION
  | PROTO_INVENTION
  | PROTO_CATASTROPHIC
  | PROTO_CONTENT_GAP
  | PROTO_EXPLORATION
  | PROTO_STAGNATION
  | PROTO_WORLD_BOOTSTRAP
  | PROTO_ARC_SEEDING
  | PROTO_ROUTINE
  | PROTO_RETCON_DISPUTE
  | PROTO_RULE_EDGE_CASE
  | PROTO_DOWNTIME
  | PROTO_MEMORY_PROMOTION
  | PROTO_MEMORY_RECALL
  deriving DecidableEq, Repr

/-- Time policies: `freeze` or `advance`. -/
inductive TimePolicy where
  | freeze
  | advance
  deriving DecidableEq, Repr

/-- `ProtocolEntry` (static registry row). -/
structure ProtocolEntry where
  time_policy : TimePolicy
  risk_policy : String
  allowed_tools : List String
  required_context : List String
  deriving DecidableEq, Repr

/-- `PROTOCOL_REGISTRY`. -/
def PROTOCOL_REGISTRY : ProtocolId → ProtocolEntry
  | .PROTO_CLARIFICATION =>
    ⟨.freeze, "none", [], ["last_intent", "scene_snapshot"]⟩
  | .PROTO_INVENTION =>
    ⟨.advance, "none", ["npc_generator", "location_generator"], ["era", "setting"]⟩
  | .PROTO_CATASTROPHIC =>
    ⟨.freeze, "confirm_catastrophic", ["threat_assessor"], ["stakes", "party_state"]⟩
  | .PROTO_CONTENT_GAP =>
    ⟨.freeze, "none", ["lore_lookup"], ["requested_topic", "campaign_memory"]⟩
  | .PROTO_EXPLORATION =>
    ⟨.advance, "none", ["map_hint", "sensory_prompt"], ["location", "scene_snapshot"]⟩
  | .PROTO_STAGNATION =>
    ⟨.advance, "none", ["pace_boost"], ["last_actions", "scene_snapshot"]⟩
  | .PROTO_WORLD_BOOTSTRAP =>
    ⟨.freeze, "none", ["world_seed"], ["era", "setting", "player_prefs"]⟩
  | .PROTO_ARC_SEEDING =>
    ⟨.advance, "none", ["plot_seed"], ["session_setup", "npcs"]⟩
  | .PROTO_ROUTINE =>
    ⟨.advance, "none", [], ["scene_snapshot"]⟩
  | .PROTO_RETCON_DISPUTE =>
    ⟨.freeze, "confirm_catastrophic", ["log_review"], ["turn_log", "player_statement"]⟩
  | .PROTO_RULE_EDGE_CASE =>
    ⟨.freeze, "none", ["rules_lookup"], ["rule_context", "character_state"]⟩
  | .PROTO_DOWNTIME =>
    ⟨.advance, "none", ["downtime_generator"], ["party_state", "resources"]⟩
  | .PROTO_MEMORY_PROMOTION =>
    ⟨.freeze, "none", ["memory_writer"], ["session_summary"]⟩
  | .PROTO_MEMORY_RECALL =>
    ⟨.freeze, "none", [], ["turn_log", "session_summary"]⟩

/-- `SAFE_PROTOCOLS`: protocols a low-confidence envelope may still run. -/
def SAFE_PROTOCOLS : List ProtocolId :=
  [.PROTO_CLARIFICATION, .PROTO_ROUTINE, .PROTO_EXPLORATION, .PROTO_DOWNTIME,
   .PROTO_CONTENT_GAP, .PROTO_RULE_EDGE_CASE, .PROTO_MEMORY_PROMOTION,
   .PROTO_MEMORY_RECALL]

/-- `_resolve_protocol_id`: parse the envelope's protocol string against the
enumeration values (`ProtocolId(value)`), `none` on `ValueError`. -/
def resolve_protocol_id (value : String) : Option ProtocolId :=
  if value = "PROTO_CLARIFICATION" then some .PROTO_CLARIFICATION
  else if value = "PROTO_INVENTION" then some .PROTO_INVENTION
  else if value = "PROTO_CATASTROPHIC" then some .PROTO_CATASTROPHIC
  else if value = "PROTO_CONTENT_GAP" then some .PROTO_CONTENT_GAP
  else if value = "PROTO_EXPLORATION" then some .PROTO_EXPLORATION
  else if value = "PROTO_STAGNATION" then some .PROTO_STAGNATION
  else if value = "PROTO_WORLD_BOOTSTRAP" then some .PROTO_WORLD_BOOTSTRAP
  else if value = "PROTO_ARC_SEEDING" then some .PROTO_ARC_SEEDING
  else if value = "PROTO_ROUTINE" then some .PROTO_ROUTINE
  else if value = "PROTO_RETCON_DISPUTE" then some .PROTO_RETCON_DISPUTE
  else if value = "PROTO_RULE_EDGE_CASE" then some .PROTO_RULE_EDGE_CASE
  else if value = "PROTO_DOWNTIME" then some .PROTO_DOWNTIME
  else if value = "PROTO_MEMORY_PROMOTION" then some .PROTO_MEMORY_PROMOTION
  else if value = "PROTO_MEMORY_RECALL" then some .PROTO_MEMORY_RECALL
  else none

/-- Values of the loosely-typed session-state dict fields. -/
inductive PyVal where
  | pyNone
  | pyBool (b : Bool)
  | pyStr (s : String)
  | pyInt (n : Int)
  | pyDict (entries : List (String × PyVal))
  | pyList (entries : List PyVal)

/-- `dict.get(key)`: first value at the key, `None` when absent (a stored
`None` and a missing key are indistinguishable, as in Python). -/
def pyGet : List (String × PyVal) → String → PyVal
  | [], _ => .pyNone
  | (k0, v0) :: rest, k => if k0 = k then v0 else pyGet rest k

/-- `_dev_mode_enabled`: read `settings.dev_mode_enabled` (falling back to
`settings.dev_mode`); a bool is taken as-is, a string counts as enabled
exactly when it lowercases to `"true"`, anything else is disabled. -/
def dev_mode_enabled (session_state : List (String × PyVal)) : Bool :=
  match pyGet session_state "settings" with
  | .pyDict settings =>
    let flag0 := pyGet settings "dev_mode_enabled"
    let flag := match flag0 with
      | .pyNone => pyGet settings "dev_mode"
      | v => v
    match flag with
    | .pyBool b => b
    | .pyStr s => pyLower s = "true"
    | _ => false
  | _ => false

/-- Envelope modes (`gm`, `ooc`, `dev`). -/
inductive EnvelopeMode where
  | gm
  | ooc
  | dev
  deriving DecidableEq, Repr

/-- Confidence tiers. -/
inductive Confidence where
  | high
  | medium
  | low
  deriving DecidableEq, Repr

/-- The fields of `TurnEnvelope` the router reads (`mode`, `protocol_id`,
`confidence`, `ooc_questions`); the remaining payload fields do not influence
`route_envelope`. -/
structure TurnEnvelope where
  mode : EnvelopeMode
  protocol_id : String
  confidence : Confidence
  ooc_questions : List String
  deriving DecidableEq, Repr

/-- `RoutedDecision`. -/
structure RoutedDecision where
  protocol_id : ProtocolId
  freeze_time : Bool
  execute : Bool
  reason : Option String
  dev_report : Option (List (String × String))
  ooc_questions : Option (List String)
  deriving DecidableEq, Repr

/-- `route_envelope`: the router's priority cascade — out-of-character intent,
then unknown protocol (dev diagnostic or clarification fallback), then the
low-confidence safety net, then normal execution under the registry's time
policy. -/
def route_envelope (envelope : TurnEnvelope) (session_state : Option (List (String × PyVal))) :
    RoutedDecision :=
  let state := session_state.getD []
  if envelope.mode = .ooc ∨ envelope.ooc_questions ≠ [] then
    ⟨.PROTO_CLARIFICATION, true, false, some "ooc", none, some envelope.ooc_questions⟩
  else
    match resolve_protocol_id envelope.protocol_id with
    | none =>
      if dev_mode_enabled state then
        ⟨.PROTO_RULE_EDGE_CASE, true, false, some "unknown_protocol",
         some [("error", "Unknown protocol_id"), ("protocol_id", envelope.protocol_id)],
         none⟩
      else
        ⟨.PROTO_CLARIFICATION, true, false, some "unknown_protocol", none,
         some ["Protocol not recognized. Can you restate your request?"]⟩
    | some protocol_id =>
      if envelope.confidence = .low ∧ protocol_id ∉ SAFE_PROTOCOLS then
        ⟨.PROTO_CLARIFICATION, true, false, some "low_confidence", none,
         some ["I need a bit more detail to proceed safely. What should I focus on?"]⟩
      else
        ⟨protocol_id, (PROTOCOL_REGISTRY protocol_id).time_policy = .freeze, true,
         some "ok", none, none⟩

/-! ### `backend/rules/turn.py`: the `TurnResult` construction sites

`execute_turn` is a large orchestrator over database and narration-service
collaborators; every `TurnResult` it can return is built at one of twelve
`TurnResult(...)` expressions.  Each site is modelled as a function of the
context-dependent values appearing in that expression, with the literal
`state_diff` / `needs_clarification` / clarification fields fixed as in the
source; `pipelineResult` enumerates the twelve sites. -/

structure TurnResult where
  intent : PyVal
  rolls : List RollEntry
  outcome : PyVal
  state_diff : List (String × PyVal)
  narration_prompt_context : PyVal
  narration : String
  suggested_actions : List PyVal
  needs_clarification : Bool
  clarification_question : Option String
  clarification_questions : List String
  project_created : Option PyVal
  raw_llm_output : Option String
  parsed_intent : Option PyVal
  validation_errors : List String

/-- Python `a or b` over an optional string (`None` and `""` are falsy). -/
def pyOrStr (a : Option String) (b : String) : String :=
  match a with
  | some s => if s ≠ "" then s else b
  | none => b

/-- The mechanics-path result of `execute_turn` (line 587): the only site with
a non-empty state diff, and it does not ask for clarification. -/
def mechanicsTurnResult (intent : PyVal) (rolls : List RollEntry) (outcome : PyVal)
    (characterDiff : PyVal) (rollIndex : Int) (narrationContext : PyVal)
    (narration : String) (suggested : List PyVal) (rawOut : Option String)
    (parsed : Option PyVal) (valErrors : List String) : TurnResult :=
  ⟨intent, rolls, outcome,
   [("character", characterDiff), ("session", .pyDict [("roll_index", .pyInt rollIndex)])],
   narrationContext, narration, suggested, false, none, [], none,
   rawOut, parsed, valErrors⟩

/-- `_clarify_turn_result` (line 1061): the shared clarification branch. -/
def clarify_turn_result (intent : PyVal) (reason dialogue : Option String)
    (clarification_questions : Option (List String)) (narrationContext : PyVal)
    (narration : String) (suggested : List PyVal) (outcome : PyVal)
    (rawOut : Option String) (parsed : Option PyVal) (valErrors : List String) :
    TurnResult :=
  let questions0 := clarification_questions.getD []
  let question0 := pyOrStr reason (pyOrStr dialogue "Please clarify your intended action.")
  let questions := if questions0 = [] then [question0] else questions0
  let question := if questions0 ≠ [] ∧ question0 = "" then questions0.headD question0
                  else question0
  ⟨intent, [], outcome, [], narrationContext, narration, suggested,
   true, some question, questions, none, rawOut, parsed, valErrors⟩

/-- The memory-recall result (line 1292). -/
def memoryRecallTurnResult (intent : PyVal) (outcome : PyVal) (narrationContext : PyVal)
    (narration : String) (suggested : List PyVal) (rawOut : Option String)
    (parsed : Option PyVal) (valErrors : List String) : TurnResult :=
  ⟨intent, [], outcome, [], narrationContext, narration, suggested,
   false, none, [], none, rawOut, parsed, valErrors⟩

/-- The dev-mode rule-edge-case proposal result (line 1393). -/
def ruleEdgeProposalTurnResult (intent : PyVal) (outcome : PyVal)
    (narrationContext : PyVal) (narration : String) (suggested : List PyVal)
    (rawOut : Option String) (parsed : Option PyVal) (valErrors : List String) :
    TurnResult :=
  ⟨intent, [], outcome, [], narrationContext, narration, suggested,
   true, some "Please provide a ruling for this edge case.",
   ["Provide a ruling.", "Add a schema/rule addition."], none,
   rawOut, parsed, valErrors⟩

/-- The conservative rule-edge-case ruling result (line 1434). -/
def ruleEdgeRulingTurnResult (intent : PyVal) (outcome : PyVal)
    (narrationContext : PyVal) (narration : String) (suggested : List PyVal)
    (rawOut : Option String) (parsed : Option PyVal) (valErrors : List String) :
    TurnResult :=
  ⟨intent, [], outcome, [], narrationContext, narration, suggested,
   false, none, [], none, rawOut, parsed, valErrors⟩

/-- The non-dev content-gap fallback result (line 1508). -/
def contentGapFallbackTurnResult (intent : PyVal) (outcome : PyVal)
    (narrationContext : PyVal) (suggested : List PyVal)
    (rawOut : Option String) (parsed : Option PyVal) (valErrors : List String) :
    TurnResult :=
  ⟨intent, [], outcome, [], narrationContext,
   "OOC: Missing system content. Proceed with a conservative fallback.", suggested,
   true, some "This system is missing. Do you want to proceed without it?",
   ["Proceed with conservative fallback.", "Pause and define the missing system."],
   none, rawOut, parsed, valErrors⟩

/-- The dev-mode content-gap system-draft result (line 1598). -/
def contentGapDraftTurnResult (intent : PyVal) (outcome : PyVal)
    (narrationContext : PyVal) (narration : String) (suggested : List PyVal)
    (rawOut : Option String) (parsed : Option PyVal) (valErrors : List String) :
    TurnResult :=
  ⟨intent, [], outcome, [], narrationContext, narration, suggested,
   true, some "Do you want to activate this system draft?",
   ["Accept the draft.", "Revise the draft."], none, rawOut, parsed, valErrors⟩

/-- The exploration-discovery result (line 1765). -/
def explorationTurnResult (intent : PyVal) (outcome : PyVal) (narrationContext : PyVal)
    (narration : String) (suggested : List PyVal) (rawOut : Option String)
    (parsed : Option PyVal) (valErrors : List String) : TurnResult :=
  ⟨intent, [], outcome, [], narrationContext, narration, suggested,
   false, none, [], none, rawOut, parsed, valErrors⟩

/-- The stagnation-pacing result (line 1946). -/
def stagnationTurnResult (intent : PyVal) (outcome : PyVal) (narrationContext : PyVal)
    (narration : String) (suggested : List PyVal) (rawOut : Option String)
    (parsed : Option PyVal) (valErrors : List String) : TurnResult :=
  ⟨intent, [], outcome, [], narrationContext, narration, suggested,
   false, none, [], none, rawOut, parsed, valErrors⟩

/-- `_retcon_dispute_result` (line 2082). -/
def retcon_dispute_result (intent : PyVal) (outcome : PyVal) (narrationContext : PyVal)
    (narration : String) (suggested : List PyVal) (rawOut : Option String)
    (parsed : Option PyVal) (valErrors : List String) : TurnResult :=
  ⟨intent, [], outcome, [], narrationContext, narration, suggested,
   true, some "Which resolution should we apply?",
   ["Clarify misunderstanding", "Retcon with minimal disruption"], none,
   rawOut, parsed, valErrors⟩

/-- The project-creation result (line 2353): clarification is asked exactly
when build questions were produced. -/
def projectCreationTurnResult (outcome : PyVal) (questions : List String)
    (projectData : PyVal) (narrationContext : PyVal) (narration : String)
    (rawOut : Option String) (parsed : Option PyVal) (valErrors : List String) :
    TurnResult :=
  ⟨.pyDict [("action_type", .pyStr "project_create")], [], outcome, [],
   narrationContext, narration, [], questions ≠ [], questions.head?, questions,
   some projectData, rawOut, parsed, valErrors⟩

/-- The scene-establishment short-circuit result (line 2442). -/
def sceneEstablishedTurnResult (intent : PyVal) (outcome : PyVal)
    (narrationContext : PyVal) (narration : String) (suggested : List PyVal)
    (rawOut : Option String) (parsed : Option PyVal) (valErrors : List String) :
    TurnResult :=
  ⟨intent, [], outcome, [], narrationContext, narration, suggested,
   true, some "Choose an action to proceed.", ["Choose an action to proceed."],
   none, rawOut, parsed, valErrors⟩

/-- A `TurnResult` the pipeline can return: one of the twelve construction
sites, over arbitrary values of their context-dependent parameters. -/
inductive pipelineResult : TurnResult → Prop where
  | mechanics (intent rolls outcome characterDiff rollIndex narrationContext
      narration suggested rawOut parsed valErrors) :
      pipelineResult (mechanicsTurnResult intent rolls outcome characterDiff
        rollIndex narrationContext narration suggested rawOut parsed valErrors)
  | clarify (intent reason dialogue clarification_questions narrationContext
      narration suggested outcome rawOut parsed valErrors) :
      pipelineResult (clarify_turn_result intent reason dialogue
        clarification_questions narrationContext narration suggested outcome
        rawOut parsed valErrors)
  | memoryRecall (intent outcome narrationContext narration suggested rawOut
      parsed valErrors) :
      pipelineResult (memoryRecallTurnResult intent outcome narrationContext
        narration suggested rawOut parsed valErrors)
  | ruleEdgeProposal (intent outcome narrationContext narration suggested rawOut
      parsed valErrors) :
      pipelineResult (ruleEdgeProposalTurnResult intent outcome narrationContext
        narration suggested rawOut parsed valErrors)
  | ruleEdgeRuling (intent outcome narrationContext narration suggested rawOut
      parsed valErrors) :
      pipelineResult (ruleEdgeRulingTurnResult intent outcome narrationContext
        narration suggested rawOut parsed valErrors)
  | contentGapFallback (intent outcome narrationContext suggested rawOut parsed
      valErrors) :
      pipelineResult (contentGapFallbackTurnResult intent outcome narrationContext
        suggested rawOut parsed valErrors)
  | contentGapDraft (intent outcome narrationContext narration suggested rawOut
      parsed valErrors) :
      pipelineResult (contentGapDraftTurnResult intent outcome narrationContext
        narration suggested rawOut parsed valErrors)
  | exploration (intent outcome narrationContext narration suggested rawOut
      parsed valErrors) :
      pipelineResult (explorationTurnResult intent outcome narrationContext
        narration suggested rawOut parsed valErrors)
  | stagnation (intent outcome narrationContext narration suggested rawOut
      parsed valErrors) :
      pipelineResult (stagnationTurnResult intent outcome narrationContext
        narration suggested rawOut parsed valErrors)
  | retconDispute (intent outcome narrationContext narration suggested rawOut
      parsed valErrors) :
      pipelineResult (retcon_dispute_result intent outcome narrationContext
        narration suggested rawOut parsed valErrors)
  | projectCreation (outcome questions projectData narrationContext narration
      rawOut parsed valErrors) :
      pipelineResult (projectCreationTurnResult outcome questions projectData
        narrationContext narration rawOut parsed valErrors)
  | sceneEstablished (intent outcome narrationContext narration suggested rawOut
      parsed valErrors) :
      pipelineResult (sceneEstablishedTurnResult intent outcome narrationContext
        narration suggested rawOut parsed valErrors)

/-! ## Theorems -/

theorem forceNat_eq {α : Sort _} (v : Nat) (k : Nat → α) : forceNat v k = k v := by
  unfold forceNat
  exact ite_self _

/-- C1: Dice-ledger determinism — two `SessionState`s built from the same
seed (with the same materialised draw budget) and fed the identical sequence
of `roll_d20` / `roll` calls return identical totals and identical roll-log
entry sequences (`runCalls` returns both the outputs and the final session,
whose `turn_log` carries formula, result, component rolls, modifier and label
of every entry). -/
theorem dice_ledger_determinism (seed budget : Nat) (calls : List RollCall)
    (s1 s2 : SessionState)
    (h1 : s1 = mkSessionState seed budget) (h2 : s2 = mkSessionState seed budget) :
    runCalls s1 calls = runCalls s2 calls := by
  subst h1
  subst h2
  rfl

theorem dice_ledger_determinism_witness :
    runCalls (mkSessionState 7 0) [RollCall.dice "3" none] =
      runCalls (mkSessionState 7 0) [RollCall.dice "3" none] :=
  dice_ledger_determinism 7 0 [RollCall.dice "3" none] _ _ rfl rfl

/-- C9: Pipeline clarification invariant — every `TurnResult` one of the
twelve pipeline construction sites can return with `needs_clarification =
true` carries an empty state diff. -/
theorem clarification_empty_state_diff (r : TurnResult) (h : pipelineResult r)
    (hc : r.needs_clarification = true) : r.state_diff = [] := by
  cases h <;> first
    | rfl
    | simp [mechanicsTurnResult] at hc

theorem clarification_empty_state_diff_witness :
    (clarify_turn_result .pyNone none none none .pyNone "" [] .pyNone none none
      []).state_diff = [] :=
  clarification_empty_state_diff _
    (pipelineResult.clarify .pyNone none none none .pyNone "" [] .pyNone none none [])
    rfl

/-- C8: Router priority cascade — (1) out-of-character mode or pending
clarifying questions force a frozen, non-executing decision regardless of the
protocol id; (2) below that, an unrecognized protocol id with developer mode
off falls back to the clarification protocol, frozen and non-executing, with
the restate question; (3) below that, low confidence outside the safe set
forces clarification, frozen and non-executing; (4) otherwise the decision
executes under the registry entry's own time policy. -/
theorem router_priority_cascade (env : TurnEnvelope)
    (st : Option (List (String × PyVal))) :
    ((env.mode = .ooc ∨ env.ooc_questions ≠ []) →
      (route_envelope env st).execute = false ∧
      (route_envelope env st).freeze_time = true) ∧
    (¬(env.mode = .ooc ∨ env.ooc_questions ≠ []) →
      resolve_protocol_id env.protocol_id = none →
      dev_mode_enabled (st.getD []) = false →
      (route_envelope env st).protocol_id = .PROTO_CLARIFICATION ∧
      (route_envelope env st).execute = false ∧
      (route_envelope env st).freeze_time = true ∧
      (route_envelope env st).ooc_questions =
        some ["Protocol not recognized. Can you restate your request?"]) ∧
    (∀ pid, ¬(env.mode = .ooc ∨ env.ooc_questions ≠ []) →
      resolve_protocol_id env.protocol_id = some pid →
      env.confidence = .low → pid ∉ SAFE_PROTOCOLS →
      (route_envelope env st).protocol_id = .PROTO_CLARIFICATION ∧
      (route_envelope env st).execute = false ∧
      (route_envelope env st).freeze_time = true) ∧
    (∀ pid, ¬(env.mode = .ooc ∨ env.ooc_questions ≠ []) →
      resolve_protocol_id env.protocol_id = some pid →
      ¬(env.confidence = .low ∧ pid ∉ SAFE_PROTOCOLS) →
      (route_envelope env st).execute = true ∧
      (route_envelope env st).freeze_time =
        decide ((PROTOCOL_REGISTRY pid).time_policy = .freeze)) := by
  refine ⟨?_, ?_, ?_, ?_⟩
  · intro h
    simp [route_envelope, if_pos h]
  · intro h hres hdev
    simp only [route_envelope, if_neg h, hres, hdev]
    exact ⟨rfl, rfl, rfl, rfl⟩
  · intro pid h hres hconf hsafe
    simp only [route_envelope, if_neg h, hres]
    rw [if_pos ⟨hconf, hsafe⟩]
    exact ⟨rfl, rfl, rfl⟩
  · intro pid h hres hnot
    simp only [route_envelope, if_neg h, hres]
    rw [if_neg hnot]
    exact ⟨rfl, rfl⟩

theorem router_priority_cascade_witness :
    (route_envelope ⟨.ooc, "PROTO_ROUTINE", .high, []⟩ none).execute = false ∧
    (route_envelope ⟨.ooc, "PROTO_ROUTINE", .high, []⟩ none).freeze_time = true :=
  (router_priority_cascade ⟨.ooc, "PROTO_ROUTINE", .high, []⟩ none).1 (Or.inl rfl)

theorem ledgerGet_dictSet_self (l : Ledger) (k : Status) (v : StatusEntry) :
    ledgerGet (dictSet l k v) k = some v := by
  induction l with
  | nil => simp [dictSet, ledgerGet]
  | cons p rest ih =>
    obtain ⟨k0, v0⟩ := p
    by_cases h : k0 = k <;> simp [dictSet, ledgerGet, h, ih]

theorem dictSet_dictSet_same (l : Ledger) (k : Status) (v w : StatusEntry) :
    dictSet (dictSet l k v) k w = dictSet l k w := by
  induction l with
  | nil => simp [dictSet]
  | cons p rest ih =>
    obtain ⟨k0, v0⟩ := p
    by_cases h : k0 = k <;> simp [dictSet, h, ih]

/-- C6: Status apply algebra — on a ledger whose entry at the key (if any) has
non-negative stacks, applying a canonical status twice with `stacks = 1`
(levels and durations defaulted) equals applying it once with `stacks = 2`;
and under any single `apply` the entry's level is non-decreasing and a numeric
duration never shrinks. -/
theorem apply_status_algebra (l : Ledger) (st : Status)
    (hstacks : ∀ e, ledgerGet l st = some e → 0 ≤ e.«stacks») :
    (applyStatus (applyStatus l st 1 1 none) st 1 1 none = applyStatus l st 2 1 none) ∧
    (∀ (stk lvl : Int) (dur : Option Int) (e : StatusEntry),
      ledgerGet l st = some e →
      ∃ e2, ledgerGet (applyStatus l st stk lvl dur) st = some e2 ∧
        e.level ≤ e2.level ∧
        (∀ d, e.duration = some d → ∃ d2, e2.duration = some d2 ∧ d ≤ d2)) := by
  constructor
  · have hs : 0 ≤ ((ledgerGet l st).getD ⟨0, 0, none⟩).«stacks» := by
      cases hget : ledgerGet l st with
      | none => simp
      | some e => simpa using hstacks e hget
    simp only [applyStatus, ledgerGet_dictSet_self, Option.getD_some,
      dictSet_dictSet_same]
    congr 1
    set e0 := (ledgerGet l st).getD ⟨0, 0, none⟩ with he0
    simp only [StatusEntry.mk.injEq]
    refine ⟨?_, ?_, ?_⟩
    · omega
    · omega
    · cases hd : DEFAULT_DURATIONS st with
      | none => rfl
      | some d =>
        cases hdur : e0.duration with
        | none => simp
        | some x =>
          simp only [hd, hdur, Option.some.injEq]
          omega
  · intro stk lvl dur e hget
    refine ⟨_, ledgerGet_dictSet_self l st _, ?_, ?_⟩
    · simp [hget]
    · intro d hd
      simp only [hget, Option.getD_some, hd]
      cases dur with
      | some d2 => exact ⟨max d d2, rfl, le_max_left d d2⟩
      | none =>
        cases hdd : DEFAULT_DURATIONS st with
        | none => simp [hdd]
        | some d2 => simp only [hdd]; exact ⟨max d d2, rfl, le_max_left d d2⟩

theorem apply_status_algebra_witness :
    applyStatus (applyStatus [] .bleeding 1 1 none) .bleeding 1 1 none =
      applyStatus [] .bleeding 2 1 none :=
  (apply_status_algebra [] .bleeding (fun e he => by simp [ledgerGet] at he)).1

theorem tickDamage_nonneg (tickKey : String) (st : Status) (e : StatusEntry) :
    0 ≤ (tickDamage tickKey st e).1 := by
  unfold tickDamage
  split_ifs <;> dsimp only <;>
    first
      | exact mul_nonneg (by omega) (by omega)
      | omega

theorem tickGo_cons_delta (tickKey : String) (st : Status) (e : StatusEntry)
    (rest : List (Status × StatusEntry)) :
    (tickGo tickKey ((st, e) :: rest)).2.1 =
      (tickGo tickKey rest).2.1 - (tickDamage tickKey st e).1 := by
  simp only [tickGo]
  split <;> first
    | rfl
    | (split_ifs <;> rfl)

theorem tickGo_delta_nonpos (tickKey : String) (l : List (Status × StatusEntry)) :
    (tickGo tickKey l).2.1 ≤ 0 := by
  induction l with
  | nil => simp [tickGo]
  | cons p rest ih =>
    obtain ⟨st, e⟩ := p
    have hd := tickDamage_nonneg tickKey st e
    rw [tickGo_cons_delta]
    omega

theorem tickDamage_turn (st : Status) (e : StatusEntry) :
    tickDamage "turn" st e =
      ((match st with
        | Status.bleeding => max 1 e.«stacks» * max 1 e.level
        | Status.ignited => 2 * max 1 e.level
        | Status.asphyxiation => 2 * max 1 e.level
        | Status.toxin => max 1 e.level
        | _ => 0), e) := by
  cases st <;> rfl

theorem tickDamage_turn_wf (st : Status) (e : StatusEntry)
    (hs2 : 1 ≤ e.«stacks») (hl2 : 1 ≤ e.level) :
    tickDamage "turn" st e =
      ((match st with
        | Status.bleeding => e.«stacks» * e.level
        | Status.ignited => 2 * e.level
        | Status.asphyxiation => 2 * e.level
        | Status.toxin => e.level
        | _ => 0), e) := by
  cases st <;> simp only [tickDamage_turn, max_eq_right hs2, max_eq_right hl2]

/-- C5: Status tick postcondition — on a well-formed ledger (stacks, level,
numeric durations all ≥ 1), a `turn` tick returns an HP delta of
−(Bleeding stacks·level + 2·Ignited level + 2·Asphyxiation level
+ Toxin level) summed over the present entries; the delta is never positive;
every entry with a numeric duration is decremented by 1 and removed (with its
name reported in the expired list, in ledger order) exactly when the duration
reaches 0; and an entry with no duration is never removed. -/
theorem tick_statuses_turn_spec (l : Ledger) (hWF : LedgerWF l) :
    (tick_statuses l "turn").2.1 =
      -(l.foldr (fun p acc =>
        (match p.1 with
         | Status.bleeding => p.2.«stacks» * p.2.level
         | Status.ignited => 2 * p.2.level
         | Status.asphyxiation => 2 * p.2.level
         | Status.toxin => p.2.level
         | _ => 0) + acc) 0) ∧
    (tick_statuses l "turn").2.1 ≤ 0 ∧
    (tick_statuses l "turn").1 = l.filterMap (fun p =>
        match p.2.duration with
        | some d => if d = 1 then none
                    else some (p.1, { p.2 with duration := some (d - 1) })
        | none => some p) ∧
    (tick_statuses l "turn").2.2 =
      (l.filter (fun p => p.2.duration = some 1)).map Prod.fst ∧
    (∀ p ∈ l, p.2.duration = none → p ∈ (tick_statuses l "turn").1) := by
  have key : pyLower (pyStrip "turn") = "turn" := by decide
  have hmain : ∀ (m : List (Status × StatusEntry)), (∀ p ∈ m, EntryWF p.2) →
      (tickGo "turn" m).2.1 =
        -(m.foldr (fun p acc =>
          (match p.1 with
           | Status.bleeding => p.2.«stacks» * p.2.level
           | Status.ignited => 2 * p.2.level
           | Status.asphyxiation => 2 * p.2.level
           | Status.toxin => p.2.level
           | _ => 0) + acc) 0) ∧
      (tickGo "turn" m).1 = m.filterMap (fun p =>
          match p.2.duration with
          | some d => if d = 1 then none
                      else some (p.1, { p.2 with duration := some (d - 1) })
          | none => some p) ∧
      (tickGo "turn" m).2.2 =
        (m.filter (fun p => p.2.duration = some 1)).map Prod.fst := by
    intro m
    induction m with
    | nil => intro _; exact ⟨rfl, rfl, rfl⟩
    | cons p rest ih =>
      intro hwf
      obtain ⟨st, e⟩ := p
      obtain ⟨ihDelta, ihLed, ihExp⟩ :=
        ih (fun q hq => hwf q (List.mem_cons_of_mem _ hq))
      obtain ⟨hs, hl, hd⟩ := hwf (st, e) (List.mem_cons_self _ _)
      have hs2 : 1 ≤ e.«stacks» := hs
      have hl2 : 1 ≤ e.level := hl
      have htd := tickDamage_turn_wf st e hs2 hl2
      cases hdur : e.duration with
      | none =>
        simp only [tickGo, htd, hdur, List.foldr_cons, List.filterMap_cons,
          List.filter_cons, List.map_cons, eq_self_iff_true, if_true, ihDelta, ihLed,
          ihExp]
        refine ⟨by omega, by simp [hdur], by simp [hdur]⟩
      | some d =>
        have hd1 : 1 ≤ d := hd d hdur
        by_cases hone : d = 1
        · subst hone
          simp only [tickGo, htd, hdur, List.foldr_cons, List.filterMap_cons,
            List.filter_cons, List.map_cons, eq_self_iff_true, if_true, ihDelta, ihLed,
            ihExp, show ((1 : Int) - 1 ≤ 0) = True by simp]
          refine ⟨by omega, by simp, by simp⟩
        · have hgt : ¬(d - 1 ≤ 0) := by omega
          simp only [tickGo, htd, hdur, List.foldr_cons, List.filterMap_cons,
            List.filter_cons, List.map_cons, eq_self_iff_true, if_true, ihDelta, ihLed,
            ihExp, if_neg hgt, if_neg hone]
          refine ⟨by omega, by simp [hone], by simp [hone]⟩
  have hm := hmain l hWF.1
  have hnp : (tickGo "turn" l).2.1 ≤ 0 := tickGo_delta_nonpos "turn" l
  have hts : tick_statuses l "turn" = tickGo "turn" l := by
    unfold tick_statuses
    rw [key]
  refine ⟨?_, ?_, ?_, ?_, ?_⟩
  · rw [hts]; exact hm.1
  · rw [hts]; exact hnp
  · rw [hts]; exact hm.2.1
  · rw [hts]; exact hm.2.2
  · intro p hp hpd
    rw [hts, hm.2.1]
    refine List.mem_filterMap.mpr ⟨p, hp, ?_⟩
    rw [hpd]

set_option maxRecDepth 100000 in
/-- C2 (counterexample): the fast-forward contract fails on the real
generator.  With seed 1 and `k = 1` prior `roll_d20` call (one component
die), the uninterrupted run's second d20 is 19, but a fresh generator
fast-forwarded by discarding one draw (`_consume_rolls`, one `rng.random()`
call consuming two 32-bit words, versus the one word the prior d20 drew)
returns 3 — so the discarded-draw replay does not leave the generator in the
state the prior roll calls produced. -/
theorem consume_rolls_not_uninterrupted_replay :
    (roll_d20 (mkSessionState 1 6) none).1 = .ok 5 ∧
    (roll_d20 ((roll_d20 (mkSessionState 1 6) none).2) none).1 = .ok 19 ∧
    (roll_d20 (consume_rolls (mkSessionState 1 6) 1) none).1 = .ok 3 ∧
    (Except.ok 19 : Except RollErr Int) ≠ .ok 3 := by
  refine ⟨?_, ?_, ?_, by decide⟩ <;> decide

/-- C2 (amended): fast-forwarding is what the pipeline relies on and is
deterministic — a fresh seeded generator with `k` draws discarded is a
function of `(seed, k)` alone, so two such generators fed identical
subsequent call sequences return identical values and logs; and each
discarded draw consumes exactly two 32-bit generator words.  It does **not**
reproduce the generator state of actually performing the prior roll calls
(see the counterexample): a die roll consumes one word per accepted
`getrandbits` draw while a discarded `random()` consumes two. -/
theorem consume_rolls_replay_deterministic (seed budget k : Nat)
    (calls : List RollCall) (s1 s2 : SessionState)
    (h1 : s1 = consume_rolls (mkSessionState seed budget) k)
    (h2 : s2 = consume_rolls (mkSessionState seed budget) k) :
    runCalls s1 calls = runCalls s2 calls ∧
    (2 * k ≤ (mkSessionState seed budget).stream.length →
      s1.stream = (mkSessionState seed budget).stream.drop (2 * k)) := by
  subst h1
  subst h2
  refine ⟨rfl, ?_⟩
  intro hlen
  have main : ∀ (j : Nat) (s : SessionState), 2 * j ≤ s.stream.length →
      (consume_rolls s j).stream = s.stream.drop (2 * j) := by
    intro j
    induction j with
    | zero => intro s _; simp [consume_rolls]
    | succ m ih =>
      intro s hlen2
      cases hs : s.stream with
      | nil =>
        rw [hs] at hlen2
        simp only [List.length_nil] at hlen2
        exact absurd hlen2 (by omega)
      | cons w1 rest =>
        cases hr : rest with
        | nil =>
          rw [hs, hr] at hlen2
          simp only [List.length_cons, List.length_nil] at hlen2
          exact absurd hlen2 (by omega)
        | cons w2 rest2 =>
          have hdraw : randomDraw s.stream =
              some ((w1 >>> 5) * 67108864 + (w2 >>> 6), rest2) := by
            rw [hs, hr]
            rfl
          simp only [consume_rolls, hdraw]
          have hlen3 : 2 * m ≤ rest2.length := by
            rw [hs, hr] at hlen2
            simp at hlen2
            omega
          have hih := ih ⟨rest2, s.turn_log⟩ hlen3
          simp only at hih
          rw [hih]
          have h2 : 2 * (m + 1) = 2 * m + 1 + 1 := by omega
          rw [h2, List.drop_succ_cons, List.drop_succ_cons]
  exact main k (mkSessionState seed budget) hlen

theorem consume_rolls_replay_deterministic_witness :
    runCalls (consume_rolls (mkSessionState 1 6) 1) [RollCall.d20 none] =
      runCalls (consume_rolls (mkSessionState 1 6) 1) [RollCall.d20 none] :=
  (consume_rolls_replay_deterministic 1 6 1 [RollCall.d20 none] _ _ rfl rfl).1

theorem randbelow_lt (n : Nat) :
    ∀ ws r ws2, randbelow n ws = some (r, ws2) → r < n := by
  intro ws
  induction ws with
  | nil => intro r ws2 h; simp [randbelow] at h
  | cons w rest ih =>
    intro r ws2 h
    simp only [randbelow] at h
    split_ifs at h with hr
    · cases h
      exact hr
    · exact ih r ws2 h

theorem randint_one_bounds (M : Nat) (ws : List Nat) (v : Nat) (ws2 : List Nat)
    (h : randint 1 M ws = some (v, ws2)) : 1 ≤ v ∧ v ≤ M := by
  simp only [randint, Option.map_eq_some'] at h
  obtain ⟨⟨r, ws3⟩, hr, heq⟩ := h
  cases heq
  have := randbelow_lt (M + 1 - 1) ws r ws3 hr
  omega

theorem rollDice_spec (sides : Nat) :
    ∀ count ws vals ws2, rollDice count sides ws = some (vals, ws2) →
      vals.length = count ∧ ∀ v ∈ vals, 1 ≤ v ∧ v ≤ (sides : Int) := by
  intro count
  induction count with
  | zero =>
    intro ws vals ws2 h
    simp only [rollDice] at h
    cases h
    simp
  | succ c ih =>
    intro ws vals ws2 h
    simp only [rollDice] at h
    cases hri : randint 1 sides ws with
    | none => rw [hri] at h; cases h
    | some p =>
      obtain ⟨v, ws3⟩ := p
      simp only [hri] at h
      cases hrest : rollDice c sides ws3 with
      | none => simp only [hrest] at h; cases h
      | some q =>
        obtain ⟨vs, ws4⟩ := q
        simp only [hrest, Option.some.injEq, Prod.mk.injEq] at h
        obtain ⟨h1, h2⟩ := h
        subst h1
        subst h2
        obtain ⟨hlen, hmem⟩ := ih ws3 vs ws4 hrest
        obtain ⟨h1, h2⟩ := randint_one_bounds sides ws v ws3 hri
        refine ⟨by simp [hlen], ?_⟩
        intro x hx
        rcases List.mem_cons.mp hx with hx | hx
        · subst hx
          constructor
          · exact_mod_cast h1
          · exact_mod_cast h2
        · exact hmem x hx

theorem diceSum_bounds (M : Nat) :
    ∀ (vals : List Int), (∀ v ∈ vals, 1 ≤ v ∧ v ≤ (M : Int)) →
      (vals.length : Int) ≤ vals.sum ∧ vals.sum ≤ (vals.length : Int) * M := by
  intro vals
  induction vals with
  | nil => intro _; simp
  | cons v vs ih =>
    intro h
    obtain ⟨h1, h2⟩ := h v (List.mem_cons_self _ _)
    obtain ⟨ih1, ih2⟩ := ih (fun x hx => h x (List.mem_cons_of_mem _ hx))
    constructor
    · simp only [List.sum_cons, List.length_cons]
      push_cast
      omega
    · simp only [List.sum_cons, List.length_cons]
      push_cast
      nlinarith

/-- C7: Dice-roll contract — a bare non-negative integer formula returns its
value and appends exactly one ledger entry (empty component list, modifier 0);
a dice formula `NdM±K` with `N ≥ 1`, `M ≥ 1` returns, on success, a total in
`[N·1+K, N·M+K]`; every successful call appends exactly one ledger entry; the
call raises the dice-format error exactly when the string matches neither
pattern or when the parsed `N` or `M` is 0; and a raised format error leaves
the session (and hence its ledger) unchanged.  (On the unbounded real
generator the dice path cannot fail once the format checks pass; the separate
`entropy` failure is an artifact of the finite modelled word stream.) -/
theorem roll_contract (s : SessionState) (f : String) (lbl : Option String) :
    (∀ n, parseIntegerFormula f = some n →
      roll s f lbl = (.ok (n : Int), logRoll s (toString n) (n : Int) [] 0 lbl)) ∧
    (∀ cO M K, parseIntegerFormula f = none →
      parseDiceFormula f = some (cO, M, K) → 1 ≤ cO.getD 1 → 1 ≤ M →
      ∀ t s2, roll s f lbl = (.ok t, s2) →
        ((cO.getD 1 : Int) + K ≤ t ∧ t ≤ (cO.getD 1 : Int) * (M : Int) + K)) ∧
    (∀ t s2, roll s f lbl = (.ok t, s2) → ∃ e, s2.turn_log = s.turn_log ++ [e]) ∧
    ((roll s f lbl).1 = .error .format ↔
      (parseIntegerFormula f = none ∧
        (parseDiceFormula f = none ∨
          ∃ cO M K, parseDiceFormula f = some (cO, M, K) ∧ (cO.getD 1 = 0 ∨ M = 0)))) ∧
    ((roll s f lbl).1 = .error .format → (roll s f lbl).2 = s) := by
  refine ⟨?_, ?_, ?_, ?_, ?_⟩
  · intro n hn
    simp only [roll, hn]
  · intro cO M K hInt hDice hN hM t s2 h
    simp only [roll, hInt, hDice] at h
    rw [if_neg (by omega)] at h
    cases hroll : rollDice (cO.getD 1) M s.stream with
    | none => rw [hroll] at h; cases h
    | some p =>
      obtain ⟨vals, ws⟩ := p
      rw [hroll] at h
      obtain ⟨ht, _⟩ := Prod.mk.injEq .. ▸ h
      cases h
      obtain ⟨hlen, hmem⟩ := rollDice_spec M (cO.getD 1) s.stream vals ws hroll
      obtain ⟨hlo, hhi⟩ := diceSum_bounds M vals hmem
      rw [hlen] at hlo hhi
      constructor
      · omega
      · have : vals.sum + K ≤ (cO.getD 1 : Int) * M + K := by omega
        exact this
  · intro t s2 h
    cases hInt : parseIntegerFormula f with
    | some n =>
      simp only [roll, hInt] at h
      cases h
      exact ⟨_, rfl⟩
    | none =>
      cases hDice : parseDiceFormula f with
      | none => simp only [roll, hInt, hDice] at h; cases h
      | some trip =>
        obtain ⟨cO, M, K⟩ := trip
        simp only [roll, hInt, hDice] at h
        by_cases hz : cO.getD 1 = 0 ∨ M = 0
        · rw [if_pos hz] at h; cases h
        · rw [if_neg hz] at h
          cases hroll : rollDice (cO.getD 1) M s.stream with
          | none => rw [hroll] at h; cases h
          | some p =>
            obtain ⟨vals, ws⟩ := p
            rw [hroll] at h
            cases h
            exact ⟨_, rfl⟩
  · constructor
    · intro h
      cases hInt : parseIntegerFormula f with
      | some n => simp only [roll, hInt] at h; cases h
      | none =>
        refine ⟨rfl, ?_⟩
        cases hDice : parseDiceFormula f with
        | none => exact Or.inl rfl
        | some trip =>
          obtain ⟨cO, M, K⟩ := trip
          refine Or.inr ⟨cO, M, K, rfl, ?_⟩
          by_contra hz
          push_neg at hz
          simp only [roll, hInt, hDice] at h
          rw [if_neg (by omega)] at h
          cases hroll : rollDice (cO.getD 1) M s.stream with
          | none => rw [hroll] at h; cases h
          | some p =>
            obtain ⟨vals, ws⟩ := p
            rw [hroll] at h
            cases h
    · rintro ⟨hInt, hrest⟩
      rcases hrest with hDice | ⟨cO, M, K, hDice, hz⟩
      · simp only [roll, hInt, hDice]
      · simp only [roll, hInt, hDice]
        rw [if_pos hz]
  · intro h
    cases hInt : parseIntegerFormula f with
    | some n => simp only [roll, hInt] at h; cases h
    | none =>
      cases hDice : parseDiceFormula f with
      | none => simp only [roll, hInt, hDice]
      | some trip =>
        obtain ⟨cO, M, K⟩ := trip
        simp only [roll, hInt, hDice] at h ⊢
        by_cases hz : cO.getD 1 = 0 ∨ M = 0
        · rw [if_pos hz]
        · rw [if_neg hz] at h ⊢
          cases hroll : rollDice (cO.getD 1) M s.stream with
          | none => rw [hroll] at h
          | some p =>
            obtain ⟨vals, ws⟩ := p
            rw [hroll] at h
            cases h

theorem roll_integer (s : SessionState) (f : String) (lbl : Option String) (n : Nat)
    (hn : parseIntegerFormula f = some n) :
    roll s f lbl = (.ok (n : Int), logRoll s (toString n) (n : Int) [] 0 lbl) := by
  simp only [roll, hn]

theorem roll_ok_append (s : SessionState) (f : String) (lbl : Option String)
    (t : Int) (s2 : SessionState) (h : roll s f lbl = (.ok t, s2)) :
    ∃ e, s2.turn_log = s.turn_log ++ [e] := by
  cases hInt : parseIntegerFormula f with
  | some n =>
    rw [roll_integer s f lbl n hInt] at h
    cases h
    exact ⟨_, rfl⟩
  | none =>
    cases hDice : parseDiceFormula f with
    | none => simp only [roll, hInt, hDice] at h; cases h
    | some trip =>
      obtain ⟨cO, M, K⟩ := trip
      simp only [roll, hInt, hDice] at h
      by_cases hz : cO.getD 1 = 0 ∨ M = 0
      · rw [if_pos hz] at h; cases h
      · rw [if_neg hz] at h
        cases hroll : rollDice (cO.getD 1) M s.stream with
        | none => rw [hroll] at h; cases h
        | some p =>
          obtain ⟨vals, ws⟩ := p
          rw [hroll] at h
          cases h
          exact ⟨_, rfl⟩

theorem roll_damage_ok (s : SessionState) (ds : String) (bonus : Int) (crit : Bool)
    (v : Int) (s2 : SessionState) (h : roll_damage s ds bonus crit = (.ok v, s2)) :
    ∃ e, s2.turn_log = s.turn_log ++ [e] ∧
      v = (if crit then 2 else 1) * e.rolls.sum + e.modifier + bonus := by
  unfold roll_damage at h
  cases hroll : roll s ds none with
  | mk r s3 =>
    rw [hroll] at h
    cases r with
    | error e0 => cases h
    | ok t =>
      obtain ⟨e, he⟩ := roll_ok_append s ds none t s3 hroll
      have hlast : s3.turn_log.getLast? = some e := by
        rw [he]
        exact List.getLast?_concat _
      dsimp only at h
      rw [hlast] at h
      cases h
      exact ⟨e, he, rfl⟩

theorem roll_damage_integer (s : SessionState) (ds : String) (bonus : Int)
    (crit : Bool) (n : Nat) (hn : parseIntegerFormula ds = some n) :
    roll_damage s ds bonus crit =
      (.ok bonus, logRoll s (toString n) (n : Int) [] 0 none) := by
  unfold roll_damage
  rw [roll_integer s ds none n hn]
  have hlast : (logRoll s (toString n) (n : Int) [] 0 none).turn_log.getLast? =
      some ⟨toString n, (n : Int), [], 0, none⟩ := by
    simp only [logRoll]
    exact List.getLast?_concat _
  dsimp only
  rw [hlast]
  simp

theorem roll_damage_dice (s : SessionState) (ds : String) (bonus : Int) (crit : Bool)
    (cO : Option Nat) (M : Nat) (K : Int) (v : Int) (s2 : SessionState)
    (hInt : parseIntegerFormula ds = none)
    (hDice : parseDiceFormula ds = some (cO, M, K))
    (h : roll_damage s ds bonus crit = (.ok v, s2)) :
    ∃ vals : List Int, vals.length = cO.getD 1 ∧ (∀ x ∈ vals, 1 ≤ x ∧ x ≤ (M : Int)) ∧
      v = (if crit then 2 else 1) * vals.sum + K + bonus := by
  unfold roll_damage at h
  revert h
  simp only [roll, hInt, hDice]
  by_cases hz : cO.getD 1 = 0 ∨ M = 0
  · rw [if_pos hz]
    intro h
    cases h
  · rw [if_neg hz]
    cases hroll : rollDice (cO.getD 1) M s.stream with
    | none =>
      intro h
      cases h
    | some p =>
      obtain ⟨vals, ws⟩ := p
      obtain ⟨hlen, hmem⟩ := rollDice_spec M (cO.getD 1) s.stream vals ws hroll
      intro h
      dsimp only at h
      rw [show (logRoll { s with stream := ws } (pyStrip ds) (vals.sum + K) vals K
            none).turn_log.getLast? =
          some ⟨pyStrip ds, vals.sum + K, vals, K, none⟩ from List.getLast?_concat _] at h
      cases h
      exact ⟨vals, hlen, hmem, rfl⟩

theorem roll_contract_witness :
    ((3 : Int) + 1 ≤ 3 ∧ (3 : Int) ≤ (2 : Int) * (6 : Int) + 1) ∨
      ((2 : Int) + 1 ≤ 3 ∧ (3 : Int) ≤ (2 : Int) * (6 : Int) + 1) := by
  refine Or.inr ?_
  have h := (roll_contract ⟨[0, 0], []⟩ "2d6+1" none).2.1 (some 2) 6 1
    (by decide) (by decide) (by decide) (by decide) 3
    (logRoll ⟨[], []⟩ "2d6+1" 3 [1, 1] 1 none) (by decide)
  exact h

theorem tick_statuses_turn_spec_witness :
    (tick_statuses [(.bleeding, ⟨2, 2, some 2⟩)] "turn").2.1 = -4 := by
  have hwf : LedgerWF [(Status.bleeding, ⟨2, 2, some 2⟩)] := by
    refine ⟨?_, by simp⟩
    intro p hp
    simp only [List.mem_singleton] at hp
    subst hp
    exact ⟨by norm_num, by norm_num, fun d hd => by
      simp only [Option.some.injEq] at hd; omega⟩
  exact ((tick_statuses_turn_spec _ hwf).1).trans (by decide)

theorem resolve_attack_inversion
    (s : SessionState) (attacker defender : CombatantState)
    (called_shot : Bool) (cse0 reaction : Option String) (rb rap : Int)
    (aro cro : Option Int) (res : AttackResult) (att2 def2 : CombatantState)
    (s2 : SessionState)
    (hap : 0 ≤ defender.ap) (hhp : 0 ≤ defender.hp)
    (h : resolve_attack s attacker defender called_shot cse0 reaction rb rap aro cro
        = (.ok (res, att2, def2), s2)) :
    (res.hit = true ↔ res.target_ar ≤ res.attack_total) ∧
    (res.attack_total = res.attack_roll + attacker.skill + attacker.attr
        + attacker.attack_bonus - (if called_shot then CALLED_SHOT_PENALTY else 0)) ∧
    (res.crit = decide (19 ≤ res.attack_roll)) ∧
    (res.hit = true → ∃ w, attacker.weapon = some w ∧
      ((∀ n, parseIntegerFormula w.damage = some n →
          res.damage = w.bonus + attacker.damage_bonus) ∧
       (∀ cO M K, parseIntegerFormula w.damage = none →
          parseDiceFormula w.damage = some (cO, M, K) →
          ∃ vals : List Int, vals.length = cO.getD 1 ∧
            (∀ x ∈ vals, 1 ≤ x ∧ x ≤ (M : Int)) ∧
            res.damage = (if res.crit then 2 else 1) * vals.sum + K
              + w.bonus + attacker.damage_bonus))) ∧
    (res.hit = true →
      res.hp_after = max 0 (res.hp_before - max 0 (res.damage - res.ap_before)) ∧
      res.ap_after = (if (if reaction = some "block" then rap else 0) ≠ 0 then
          min (max 0 (res.ap_before - res.damage)) defender.ap
        else max 0 (defender.ap - res.damage))) ∧
    (res.hit = false → res.damage = 0 ∧ res.ap_after = defender.ap ∧
      res.hp_after = defender.hp) ∧
    def2.ap = res.ap_after ∧ def2.hp = res.hp_after ∧
    res.ap_before = defender.ap + (if reaction = some "block" then rap else 0) ∧
    res.hp_before = defender.hp ∧
    0 ≤ def2.ap ∧ 0 ≤ def2.hp := by
  simp only [resolve_attack] at h
  by_cases hguard : (called_shot && !calledShotEffectValid
      (if called_shot ∧ cse0 = none then some "disarm" else cse0)) = true
  · rw [if_pos hguard] at h
    cases h
  · rw [if_neg hguard] at h
    rcases hroll : (match aro with
      | some v => if v ≠ 0 then (Except.ok v, s) else roll_d20 s none
      | none => roll_d20 s none) with ⟨r, s9⟩
    rw [hroll] at h
    cases r with
    | error e0 => cases h
    | ok attack_roll =>
      dsimp only at h
      by_cases hhit : (defender.armor_rating + dodge_bonus reaction rb ≤
          attack_roll + attacker.skill + attacker.attr + attacker.attack_bonus -
            if called_shot = true then CALLED_SHOT_PENALTY else 0)
      · rw [decide_eq_true hhit] at h
        rw [if_pos rfl] at h
        cases hw : attacker.weapon with
        | none => rw [hw] at h; cases h
        | some w =>
          rw [hw] at h
          dsimp only at h
          rcases hrd : roll_damage s9 w.damage (w.bonus + attacker.damage_bonus)
              (decide (19 ≤ attack_roll)) with ⟨rd, s10⟩
          rw [hrd] at h
          cases rd with
          | error e1 => cases h
          | ok dmg =>
            dsimp only at h
            by_cases hblock : ((if reaction = some "block" then rap else 0) ≠ 0)
            · rw [if_pos hblock] at h
              rw [if_neg (show ¬(reaction = some "counter" ∧ true = false) by simp)] at h
              dsimp only at h
              cases h
              refine ⟨by simp [hhit], rfl, rfl, ?_, ?_, ?_, rfl, rfl, rfl, rfl, ?_, ?_⟩
              · intro _
                refine ⟨w, rfl, ?_, ?_⟩
                · intro n hn
                  have h2 := hrd.symm.trans (roll_damage_integer s9 w.damage
                      (w.bonus + attacker.damage_bonus) (decide (19 ≤ attack_roll)) n hn)
                  simp only [Prod.mk.injEq, Except.ok.injEq] at h2
                  exact h2.1
                · intro cO M K hInt hDice
                  obtain ⟨vals, hlen, hmem, hv⟩ := roll_damage_dice s9 w.damage
                      (w.bonus + attacker.damage_bonus) (decide (19 ≤ attack_roll))
                      cO M K dmg s2 hInt hDice hrd
                  refine ⟨vals, hlen, hmem, ?_⟩
                  dsimp only
                  omega
              · intro _
                constructor
                · dsimp only
                  simp [apply_damage_with_block, apply_damage]
                · dsimp only
                  rw [if_pos hblock]
                  simp [apply_damage_with_block, apply_damage]
              · intro hc0
                simp at hc0
              · dsimp only
                simp only [apply_damage_with_block, apply_damage]
                exact le_min (le_max_left 0 _) hap
              · dsimp only
                simp only [apply_damage_with_block, apply_damage]
                exact le_max_left 0 _
            · rw [if_neg hblock] at h
              rw [if_neg (show ¬(reaction = some "counter" ∧ true = false) by simp)] at h
              dsimp only at h
              cases h
              refine ⟨by simp [hhit], rfl, rfl, ?_, ?_, ?_, rfl, rfl, rfl, rfl, ?_, ?_⟩
              · intro _
                refine ⟨w, rfl, ?_, ?_⟩
                · intro n hn
                  have h2 := hrd.symm.trans (roll_damage_integer s9 w.damage
                      (w.bonus + attacker.damage_bonus) (decide (19 ≤ attack_roll)) n hn)
                  simp only [Prod.mk.injEq, Except.ok.injEq] at h2
                  exact h2.1
                · intro cO M K hInt hDice
                  obtain ⟨vals, hlen, hmem, hv⟩ := roll_damage_dice s9 w.damage
                      (w.bonus + attacker.damage_bonus) (decide (19 ≤ attack_roll))
                      cO M K dmg s2 hInt hDice hrd
                  refine ⟨vals, hlen, hmem, ?_⟩
                  dsimp only
                  omega
              · intro _
                constructor
                · dsimp only
                  push_neg at hblock
                  simp [apply_damage, hblock]
                · dsimp only
                  rw [if_neg hblock]
                  push_neg at hblock
                  simp [apply_damage, hblock]
              · intro hc0
                simp at hc0
              · dsimp only
                simp only [apply_damage]
                exact le_max_left 0 _
              · dsimp only
                simp only [apply_damage]
                exact le_max_left 0 _
      · rw [decide_eq_false hhit] at h
        rw [if_neg (show ¬(false = true) by simp)] at h
        dsimp only at h
        by_cases hc : reaction = some "counter"
        · rw [if_pos ⟨hc, rfl⟩] at h
          rcases hcr : resolve_counter s9 cro attacker defender with ⟨rc, s11⟩
          rw [hcr] at h
          cases rc with
          | error e2 => cases h
          | ok q =>
            obtain ⟨cr, attacker2⟩ := q
            dsimp only at h
            cases h
            refine ⟨by simp [hhit], rfl, rfl, ?_, ?_, ?_, rfl, rfl, rfl, rfl, hap, hhp⟩
            · intro hc0
              simp at hc0
            · intro hc0
              simp at hc0
            · intro _
              exact ⟨rfl, rfl, rfl⟩
        · rw [if_neg (by simp [hc])] at h
          dsimp only at h
          cases h
          refine ⟨by simp [hhit], rfl, rfl, ?_, ?_, ?_, rfl, rfl, rfl, rfl, hap, hhp⟩
          · intro hc0
            simp at hc0
          · intro hc0
            simp at hc0
          · intro _
            exact ⟨rfl, rfl, rfl⟩

/-- C3 (counterexample): the claim's damage formula fails for bare-integer
weapon formulas.  Attacker with weapon damage `"5"` (flat bonus 0, damage
bonus 0) hits with a non-critical 10 against threshold 0: `roll` returns 5
for the formula, so the claim predicts damage `5 + 0 + 0 = 5`, but
`resolve_attack` recomputes damage from the logged per-die components (an
integer formula logs an empty dice list and modifier 0) and deals 0. -/
theorem resolve_attack_damage_counterexample :
    ((resolve_attack ⟨[], []⟩
        ⟨"A", 0, 0, 0, 0, [], 0, 0, 0, 0, some ⟨"F", "5", 0, []⟩, 0⟩
        ⟨"D", 0, 0, 3, 10, [], 0, 0, 0, 0, none, 0⟩
        false none none 0 0 (some 10) none).1.map
      (fun r => (r.1.hit, r.1.crit, r.1.damage)) = .ok (true, false, 0)) ∧
    (roll ⟨[], []⟩ "5" none).1 = .ok 5 ∧
    (0 : Int) ≠ 5 + 0 + 0 :=
  ⟨by decide, by decide, by decide⟩

/-- C3 (amended): combat resolution postcondition with the damage clause
corrected to the code's recompute-from-logged-components behaviour — the
attack hits iff the attack total (d20 + skill + attribute + attack bonus −
called-shot penalty when declared) reaches the effective armor threshold; on
a hit the damage equals the dice-sum of the logged weapon roll (doubled
exactly when the natural roll is ≥ 19) plus the logged modifier, the weapon's
flat bonus and the attacker's damage bonus — a bare-integer weapon formula
therefore contributes nothing beyond the bonuses; damage is absorbed by AP
(including any block AP) before HP; and the returned AP and HP are never
negative. -/
theorem resolve_attack_spec
    (s : SessionState) (attacker defender : CombatantState)
    (called_shot : Bool) (cse0 reaction : Option String) (rb rap : Int)
    (aro cro : Option Int) (res : AttackResult) (att2 def2 : CombatantState)
    (s2 : SessionState)
    (hap : 0 ≤ defender.ap) (hhp : 0 ≤ defender.hp)
    (h : resolve_attack s attacker defender called_shot cse0 reaction rb rap aro cro
        = (.ok (res, att2, def2), s2)) :
    (res.hit = true ↔ res.target_ar ≤ res.attack_total) ∧
    (res.attack_total = res.attack_roll + attacker.skill + attacker.attr
        + attacker.attack_bonus - (if called_shot then CALLED_SHOT_PENALTY else 0)) ∧
    (res.crit = decide (19 ≤ res.attack_roll)) ∧
    (res.hit = true → ∃ w, attacker.weapon = some w ∧
      ((∀ n, parseIntegerFormula w.damage = some n →
          res.damage = w.bonus + attacker.damage_bonus) ∧
       (∀ cO M K, parseIntegerFormula w.damage = none →
          parseDiceFormula w.damage = some (cO, M, K) →
          ∃ vals : List Int, vals.length = cO.getD 1 ∧
            (∀ x ∈ vals, 1 ≤ x ∧ x ≤ (M : Int)) ∧
            res.damage = (if res.crit then 2 else 1) * vals.sum + K
              + w.bonus + attacker.damage_bonus))) ∧
    (res.hit = true →
      res.hp_after = max 0 (res.hp_before - max 0 (res.damage - res.ap_before)) ∧
      res.ap_after = (if (if reaction = some "block" then rap else 0) ≠ 0 then
          min (max 0 (res.ap_before - res.damage)) defender.ap
        else max 0 (defender.ap - res.damage))) ∧
    (res.hit = false → res.damage = 0 ∧ res.ap_after = defender.ap ∧
      res.hp_after = defender.hp) ∧
    def2.ap = res.ap_after ∧ def2.hp = res.hp_after ∧ 0 ≤ def2.ap ∧ 0 ≤ def2.hp := by
  obtain ⟨a, b, c, d, e, f, g, hh, _, _, i, j⟩ :=
    resolve_attack_inversion s attacker defender called_shot cse0 reaction rb rap
      aro cro res att2 def2 s2 hap hhp h
  exact ⟨a, b, c, d, e, f, g, hh, i, j⟩

theorem resolve_attack_spec_witness :
    (0 : Int) ≤ (CombatantState.mk "E" 0 1 0 9 [] 0 0 0 0 none 0).hp :=
  (resolve_attack_spec ⟨[0], []⟩
    ⟨"B", 0, 0, 0, 0, [], 0, 0, 0, 0, some ⟨"Sw", "1d6", 0, []⟩, 0⟩
    ⟨"E", 0, 1, 2, 9, [], 0, 0, 0, 0, none, 0⟩
    false none none 0 0 (some 20) none
    ⟨true, true, 20, 20, 1, 2, 2, 0, 9, 9, none, none⟩
    ⟨"B", 0, 0, 0, 0, [], 0, 0, 0, 0, some ⟨"Sw", "1d6", 0, []⟩, 0⟩
    ⟨"E", 0, 1, 0, 9, [], 0, 0, 0, 0, none, 0⟩
    ⟨[], [⟨"1d6", 1, [1], 0, none⟩]⟩
    (by decide) (by decide) (by decide)).2.2.2.2.2.2.2.2.2

/-- C4 (counterexample): with a `block` reaction granting block AP `b = 0`
and a weapon whose damage total is negative (`"1d1-5"` rolls 1 − 5 = −4), the
reported "AP before" is base + 0 = 3 but the returned remaining AP is
`max 0 (3 − (−4)) = 7`, exceeding the defender's base AP of 3 — so the
"capped at base AP" clause fails for a zero block AP. -/
theorem resolve_attack_block_zero_counterexample :
    ((resolve_attack ⟨[0], []⟩
        ⟨"J", 0, 0, 0, 0, [], 0, 0, 0, 0, some ⟨"Odd", "1d1-5", 0, []⟩, 0⟩
        ⟨"K", 0, 0, 3, 10, [], 0, 0, 0, 0, none, 0⟩
        false none (some "block") 0 0 (some 15) none).1.map
      (fun r => (r.1.ap_before, r.2.2.ap)) = .ok (3, 7)) ∧
    ¬((7 : Int) ≤ 3) :=
  ⟨by decide, by decide⟩

/-- C4 (amended): Block reaction AP semantics — for a `block` reaction
granting a non-zero block AP `b`, the reported "AP before" equals the defender's base AP
plus `b`; damage on a hit is absorbed against base AP plus `b` before HP is
reduced; and the defender's returned remaining AP is capped at the base AP,
so an unspent block bonus never carries forward. -/
theorem resolve_attack_block_cap
    (s : SessionState) (attacker defender : CombatantState)
    (called_shot : Bool) (cse0 : Option String) (rb rap : Int)
    (aro cro : Option Int) (res : AttackResult) (att2 def2 : CombatantState)
    (s2 : SessionState)
    (hap : 0 ≤ defender.ap) (hhp : 0 ≤ defender.hp) (hrap : rap ≠ 0)
    (h : resolve_attack s attacker defender called_shot cse0 (some "block") rb rap
        aro cro = (.ok (res, att2, def2), s2)) :
    res.ap_before = defender.ap + rap ∧
    def2.ap ≤ defender.ap ∧
    def2.ap = res.ap_after ∧
    (res.hit = true →
      res.ap_after = min (max 0 (defender.ap + rap - res.damage)) defender.ap ∧
      res.hp_after = max 0 (defender.hp - max 0 (res.damage - (defender.ap + rap)))) := by
  obtain ⟨_, _, _, _, e, f, g, _, p1, p2, _, _⟩ :=
    resolve_attack_inversion s attacker defender called_shot cse0 (some "block")
      rb rap aro cro res att2 def2 s2 hap hhp h
  have hite : (if (some "block" : Option String) = some "block" then rap else 0) = rap := by
    simp
  rw [hite] at p1 e
  have hcap : def2.ap ≤ defender.ap := by
    cases hres : res.hit with
    | true =>
      obtain ⟨_, hapf⟩ := e hres
      rw [if_pos hrap, p1] at hapf
      rw [g, hapf]
      exact min_le_right _ _
    | false =>
      obtain ⟨_, hapf, _⟩ := f hres
      rw [g, hapf]
  refine ⟨p1, hcap, g, ?_⟩
  intro hres
  obtain ⟨hhpf, hapf⟩ := e hres
  rw [if_pos hrap, p1] at hapf
  rw [p1, p2] at hhpf
  exact ⟨hapf, hhpf⟩

theorem resolve_attack_block_cap_witness :
    (CombatantState.mk "G" 0 2 2 8 [] 0 0 0 0 none 0).ap ≤
      (CombatantState.mk "G" 0 2 2 8 [] 0 0 0 0 none 0).ap :=
  (resolve_attack_block_cap ⟨[0], []⟩
    ⟨"C", 0, 0, 0, 0, [], 0, 0, 0, 0, some ⟨"Ax", "1d4", 1, []⟩, 0⟩
    ⟨"G", 0, 2, 2, 8, [], 0, 0, 0, 0, none, 0⟩
    false none 0 3 (some 15) none
    ⟨true, false, 15, 15, 2, 2, 5, 2, 8, 8, none, none⟩
    ⟨"C", 0, 0, 0, 0, [], 0, 0, 0, 0, some ⟨"Ax", "1d4", 1, []⟩, 0⟩
    ⟨"G", 0, 2, 2, 8, [], 0, 0, 0, 0, none, 0⟩
    ⟨[], [⟨"1d4", 1, [1], 0, none⟩]⟩
    (by decide) (by decide) (by decide) (by decide)).2.1

/-- C10: a hit whose weapon damage formula is a bare non-negative integer
deals only the weapon's flat bonus plus the attacker's damage bonus — the
rolled integer itself contributes nothing, on critical and normal hits alike,
because damage is recomputed from the logged per-die components and an
integer-formula roll logs an empty dice list with modifier 0. -/
theorem resolve_attack_integer_formula_damage
    (s : SessionState) (attacker defender : CombatantState)
    (called_shot : Bool) (cse0 reaction : Option String) (rb rap : Int)
    (aro cro : Option Int) (res : AttackResult) (att2 def2 : CombatantState)
    (s2 : SessionState) (w : Weapon) (n : Nat)
    (hap : 0 ≤ defender.ap) (hhp : 0 ≤ defender.hp)
    (hw : attacker.weapon = some w) (hn : parseIntegerFormula w.damage = some n)
    (h : resolve_attack s attacker defender called_shot cse0 reaction rb rap aro cro
        = (.ok (res, att2, def2), s2))
    (hhit : res.hit = true) :
    res.damage = w.bonus + attacker.damage_bonus := by
  obtain ⟨_, _, _, d, _, _, _, _, _, _, _, _⟩ :=
    resolve_attack_inversion s attacker defender called_shot cse0 reaction rb rap
      aro cro res att2 def2 s2 hap hhp h
  obtain ⟨w2, hw2, hint, _⟩ := d hhit
  rw [hw] at hw2
  cases hw2
  exact hint n hn

theorem resolve_attack_integer_formula_damage_witness :
    (AttackResult.mk true false 12 12 0 8 1 0 6 0 none none).damage =
      (Weapon.mk "Gun" "7" 4 []).bonus + 4 :=
  resolve_attack_integer_formula_damage ⟨[], []⟩
    ⟨"H", 0, 0, 0, 0, [], 0, 0, 0, 4, some ⟨"Gun", "7", 4, []⟩, 0⟩
    ⟨"I", 0, 0, 1, 6, [], 0, 0, 0, 0, none, 0⟩
    false none none 0 0 (some 12) none
    ⟨true, false, 12, 12, 0, 8, 1, 0, 6, 0, none, none⟩
    ⟨"H", 0, 0, 0, 0, [], 0, 0, 0, 4, some ⟨"Gun", "7", 4, []⟩, 0⟩
    ⟨"I", 0, 0, 0, 0, [], 0, 0, 0, 0, none, 0⟩
    ⟨[], [⟨"7", 7, [], 0, none⟩]⟩
    ⟨"Gun", "7", 4, []⟩ 7
    (by decide) (by decide) (by decide) (by decide) (by decide) (by decide)

end IagRunner
